import Mathlib

/-!
Verification development for the move-ordering subsystem of the Laser UCI
chess engine (src/moveorder.cpp, src/moveorder.h).

The embedding is shallow: the `MoveOrder` object of the C++ code becomes a
Lean structure, its mutating member functions become state-passing functions,
and the external collaborators (the `Board` evaluation functions, the shared
`SearchParameters` heuristic store and the per-ply `SearchStackInfo`) are
modelled as explicit parameters holding arbitrary total functions, exactly as
the code accesses them.  Machine integers are modelled as `Int`; the C++
truncating division in the history update is `Int.tdiv`.
-/

namespace Laser

/-- A move, as in common.h an opaque encoded value; the concrete encoding is
external to the move-ordering core, so we use `Nat`. -/
abbrev Move := Nat

/-- The reserved sentinel meaning "no move". -/
def NULL_MOVE : Move := 0

/-- Piece identifier of queens, used by the promotion check in scoreQuiets. -/
def QUEENS : Nat := 4

-- Score tier constants from moveorder.cpp lines 22-27 (values written out:
-- 1<<20, 1<<18, 1<<17, 1<<16, -(1<<30), -(1<<30)-(1<<28)).
def SCORE_IID_MOVE : Int := 1048576
def SCORE_WINNING_CAPTURE : Int := 262144
def SCORE_QUEEN_PROMO : Int := 131072
def SCORE_EVEN_CAPTURE : Int := 65536
def SCORE_QUIET_MOVE : Int := -1073741824
def SCORE_LOSING_CAPTURE : Int := -1073741824 - 268435456

/-- The external Board / common.h capabilities used by the move-ordering
core, modelled as arbitrary total functions. -/
structure Env where
  isCapture : Move → Bool
  getPromotion : Move → Nat
  getStartSq : Move → Nat
  getEndSq : Move → Nat
  getSEEForMove : Nat → Move → Int
  getExchangeScore : Nat → Move → Int
  getMVVLVAScore : Nat → Move → Int
  getPieceOnSquare : Nat → Nat → Nat

/-- The shared mutable heuristic store (searchparams.h): the main history
table indexed by color, piece and destination square, and the killer table
indexed by ply and slot. -/
structure SearchParameters where
  historyTable : Nat → Nat → Nat → Int
  killers : Nat → Nat → Move

/-- Per-ply search stack context: ply index and the optional counter-move /
follow-up history tables (null pointers become `none`). -/
structure SearchStackInfo where
  ply : Nat
  counterMoveHistory : Option (Nat → Nat → Int)
  followupMoveHistory : Option (Nat → Nat → Int)

/-- The staged generation state machine states (moveorder.h). -/
inductive MoveGenStage where
  | STAGE_NONE
  | STAGE_HASH_MOVE
  | STAGE_CAPTURES
  | STAGE_QUIETS
deriving DecidableEq

/-- The MoveOrder object state (moveorder.h).  The `b`, `searchParams` and
`ssi` pointers are passed to each operation explicitly instead. -/
structure MoveOrder where
  color : Nat
  depth : Int
  isPVNode : Bool
  mgStage : MoveGenStage
  hashed : Move
  legalMoves : List Move
  scores : List Int
  quietStart : Nat
  index : Nat

/-- The constructor MoveOrder::MoveOrder. -/
def MoveOrder.init (color : Nat) (depth : Int) (isPVNode : Bool)
    (hashed : Move) (legalMoves : List Move) : MoveOrder :=
  { color := color, depth := depth, isPVNode := isPVNode,
    mgStage := .STAGE_NONE, quietStart := 0, index := 0,
    hashed := hashed, legalMoves := legalMoves, scores := [] }

/-- MoveList::swap, exchanging the entries at two (in-range) indices. -/
def listSwap {α : Type} (l : List α) (i j : Nat) : List α :=
  match l[i]?, l[j]? with
  | some a, some b => (l.set i b).set j a
  | _, _ => l

/-- The score MoveOrder::scoreCaptures assigns to one capture
(moveorder.cpp lines 87-131). -/
def captureScore (env : Env) (color : Nat) (isPVNode : Bool) (m : Move) : Int :=
  if isPVNode then
    let see := env.getSEEForMove color m
    if see > 0 then SCORE_WINNING_CAPTURE + see + env.getMVVLVAScore color m
    else if see = 0 then SCORE_EVEN_CAPTURE + env.getMVVLVAScore color m
    else SCORE_LOSING_CAPTURE + see + env.getMVVLVAScore color m
  else
    let exchange := env.getExchangeScore color m
    if exchange > 0 then SCORE_WINNING_CAPTURE + env.getMVVLVAScore color m
    else if exchange = 0 then SCORE_EVEN_CAPTURE + env.getMVVLVAScore color m
    else
      let see := env.getSEEForMove color m
      if see > 0 then SCORE_WINNING_CAPTURE + env.getMVVLVAScore color m
      else if see = 0 then SCORE_EVEN_CAPTURE + env.getMVVLVAScore color m
      else SCORE_LOSING_CAPTURE + env.getMVVLVAScore color m

/-- The score MoveOrder::scoreQuiets assigns to one quiet move
(moveorder.cpp lines 133-157). -/
def quietScore (env : Env) (sp : SearchParameters) (ssi : SearchStackInfo)
    (color : Nat) (m : Move) : Int :=
  if m = sp.killers ssi.ply 0 then SCORE_EVEN_CAPTURE - 1
  else if env.getPromotion m = QUEENS then SCORE_QUEEN_PROMO
  else
    let pieceID := env.getPieceOnSquare color (env.getStartSq m)
    let endSq := env.getEndSq m
    SCORE_QUIET_MOVE
      + sp.historyTable color pieceID endSq
      + (match ssi.counterMoveHistory with
         | some f => f pieceID endSq
         | none => 0)
      + (match ssi.followupMoveHistory with
         | some f => f pieceID endSq
         | none => 0)

/-- MoveOrder::findQuietStart: index of the first non-capture move,
legalMoves.size() when every move is a capture. -/
def MoveOrder.findQuietStart (env : Env) (mo : MoveOrder) : MoveOrder :=
  { mo with quietStart := mo.legalMoves.findIdx (fun m => !(env.isCapture m)) }

/-- MoveOrder::scoreCaptures: appends one score per move of the capture
region (indices below quietStart). -/
def MoveOrder.scoreCaptures (env : Env) (mo : MoveOrder) : MoveOrder :=
  let batch := (mo.legalMoves.take mo.quietStart).map (captureScore env mo.color mo.isPVNode)
  { mo with scores := mo.scores ++ batch }

/-- MoveOrder::scoreQuiets: appends one score per move at index ≥ quietStart. -/
def MoveOrder.scoreQuiets (env : Env) (sp : SearchParameters)
    (ssi : SearchStackInfo) (mo : MoveOrder) : MoveOrder :=
  let batch := (mo.legalMoves.drop mo.quietStart).map (quietScore env sp ssi mo.color)
  { mo with scores := mo.scores ++ batch }

/-- The STAGE_HASH_MOVE case body of MoveOrder::generateMoves (also reached
by fallthrough from STAGE_NONE when there is no hash move): findQuietStart,
advance to STAGE_CAPTURES, score the captures. -/
def MoveOrder.hashStage (env : Env) (mo : MoveOrder) : MoveOrder :=
  let mo1 := mo.findQuietStart env
  MoveOrder.scoreCaptures env { mo1 with mgStage := .STAGE_CAPTURES }

/-- MoveOrder::generateMoves (moveorder.cpp lines 47-84). -/
def MoveOrder.generateMoves (env : Env) (sp : SearchParameters)
    (ssi : SearchStackInfo) (mo : MoveOrder) : MoveOrder :=
  match mo.mgStage with
  | .STAGE_NONE =>
      if mo.hashed ≠ NULL_MOVE then
        -- remove the hash move from the list (first occurrence) and enter
        -- STAGE_HASH_MOVE
        { mo with mgStage := .STAGE_HASH_MOVE,
                  legalMoves := mo.legalMoves.erase mo.hashed }
      else
        -- fallthrough to the STAGE_HASH_MOVE case
        mo.hashStage env
  | .STAGE_HASH_MOVE => mo.hashStage env
  | .STAGE_CAPTURES =>
      MoveOrder.scoreQuiets env sp ssi { mo with mgStage := .STAGE_QUIETS }
  | .STAGE_QUIETS => mo

/-- One fuel-indexed unfolding of the while loop at the top of
MoveOrder::nextMove: while index ≥ scores.size(), if mgStage is
STAGE_QUIETS stop (the caller returns NULL_MOVE), else generateMoves.
Each recursive call strictly advances mgStage, so fuel 4 realises the loop
exactly. -/
def MoveOrder.genLoopF (env : Env) (sp : SearchParameters)
    (ssi : SearchStackInfo) : Nat → MoveOrder → MoveOrder
  | 0, mo => mo
  | n + 1, mo =>
      if mo.scores.length ≤ mo.index then
        if mo.mgStage = .STAGE_QUIETS then mo
        else MoveOrder.genLoopF env sp ssi n (mo.generateMoves env sp ssi)
      else mo

/-- The while loop of MoveOrder::nextMove. -/
def MoveOrder.genLoop (env : Env) (sp : SearchParameters)
    (ssi : SearchStackInfo) (mo : MoveOrder) : MoveOrder :=
  MoveOrder.genLoopF env sp ssi 4 mo

/-- The selection scan of MoveOrder::nextMove (lines 177-185): starting
from accumulator position `bi` with score `bs`, scan the remaining scores
(`l` is the list suffix beginning at absolute index `i`), moving the
accumulator on a strictly greater score. -/
def selFrom : List Int → Nat → Nat → Int → Nat × Int
  | [], _, bi, bs => (bi, bs)
  | s :: rest, i, bi, bs =>
      if bs < s then selFrom rest (i + 1) i s
      else selFrom rest (i + 1) bi bs

/-- The selection part of MoveOrder::nextMove (lines 177-196), entered when
index < scores.size(): find the best remaining score, swap it (and its
move) to the cursor, possibly trigger the eager CAPTURES→QUIETS transition,
and return the move now at the cursor, advancing the cursor. -/
def MoveOrder.selectPhase (env : Env) (sp : SearchParameters)
    (ssi : SearchStackInfo) (mo : MoveOrder) : Move × MoveOrder :=
  let sel := selFrom (mo.scores.drop (mo.index + 1)) (mo.index + 1)
      mo.index (mo.scores.getD mo.index 0)
  let bestIndex := sel.1
  let bestScore := sel.2
  let mo2 := { mo with
      legalMoves := listSwap mo.legalMoves bestIndex mo.index,
      scores := listSwap mo.scores bestIndex mo.index }
  let mo3 :=
    if mo2.mgStage = .STAGE_CAPTURES ∧ bestScore < SCORE_WINNING_CAPTURE
    then mo2.generateMoves env sp ssi else mo2
  (mo3.legalMoves.getD mo3.index NULL_MOVE, { mo3 with index := mo3.index + 1 })

/-- MoveOrder::nextMove (moveorder.cpp lines 162-197).  Returns the yielded
move (NULL_MOVE on exhaustion) together with the updated object state. -/
def MoveOrder.nextMove (env : Env) (sp : SearchParameters)
    (ssi : SearchStackInfo) (mo : MoveOrder) : Move × MoveOrder :=
  if mo.mgStage = .STAGE_HASH_MOVE then (mo.hashed, mo)
  else
    let mo1 := mo.genLoop env sp ssi
    if mo1.scores.length ≤ mo1.index then (NULL_MOVE, mo1)
    else mo1.selectPhase env sp ssi

/-- Pointwise update of a three-index table. -/
def upd3 (f : Nat → Nat → Nat → Int) (a b c : Nat) (v : Int) :
    Nat → Nat → Nat → Int :=
  fun x y z => if x = a ∧ y = b ∧ z = c then v else f x y z

/-- Pointwise update of a two-index table. -/
def upd2 (f : Nat → Nat → Int) (b c : Nat) (v : Int) : Nat → Nat → Int :=
  fun y z => if y = b ∧ z = c then v else f y z

/-- The best-move reinforcement applied to one history cell by
MoveOrder::updateHistories: w ← w − d·w/64 + d², with C++ truncating
division. -/
def histBonus (d w : Int) : Int := w - Int.tdiv (d * w) 64 + d * d

/-- The penalty applied to one history cell of a quiet move tried before
the best move: w ← w − d·w/64 − d². -/
def histMalus (d w : Int) : Int := w - Int.tdiv (d * w) 64 - d * d

/-- Apply the reinforcement update for one move's (color, piece,
destination) key to the main, counter-move and follow-up tables
(moveorder.cpp lines 204-220). -/
def bonusAll (env : Env) (color : Nat) (d : Int) (m : Move)
    (sp : SearchParameters) (ssi : SearchStackInfo) :
    SearchParameters × SearchStackInfo :=
  let pieceID := env.getPieceOnSquare color (env.getStartSq m)
  let endSq := env.getEndSq m
  let ht := upd3 sp.historyTable color pieceID endSq (histBonus d (sp.historyTable color pieceID endSq))
  let cmh := ssi.counterMoveHistory.map (fun f => upd2 f pieceID endSq (histBonus d (f pieceID endSq)))
  let fmh := ssi.followupMoveHistory.map (fun f => upd2 f pieceID endSq (histBonus d (f pieceID endSq)))
  ({ sp with historyTable := ht },
   { ssi with counterMoveHistory := cmh, followupMoveHistory := fmh })

/-- Apply the penalty update for one move's key to the three tables
(moveorder.cpp lines 231-247). -/
def malusAll (env : Env) (color : Nat) (d : Int) (m : Move)
    (sp : SearchParameters) (ssi : SearchStackInfo) :
    SearchParameters × SearchStackInfo :=
  let pieceID := env.getPieceOnSquare color (env.getStartSq m)
  let endSq := env.getEndSq m
  let ht := upd3 sp.historyTable color pieceID endSq (histMalus d (sp.historyTable color pieceID endSq))
  let cmh := ssi.counterMoveHistory.map (fun f => upd2 f pieceID endSq (histMalus d (f pieceID endSq)))
  let fmh := ssi.followupMoveHistory.map (fun f => upd2 f pieceID endSq (histMalus d (f pieceID endSq)))
  ({ sp with historyTable := ht },
   { ssi with counterMoveHistory := cmh, followupMoveHistory := fmh })

/-- The penalty loop of MoveOrder::updateHistories (lines 225-248):
for i from 0 while i < index−1, stop at the best move, skip captures,
penalise other (quiet) moves.  `rem` counts the remaining iterations,
starting from index−1. -/
def penaltyLoopF (env : Env) (mo : MoveOrder) (bestMove : Move) (d : Int) :
    Nat → Nat → SearchParameters × SearchStackInfo →
    SearchParameters × SearchStackInfo
  | 0, _, t => t
  | rem + 1, i, t =>
      let m := mo.legalMoves.getD i NULL_MOVE
      if m = bestMove then t
      else if env.isCapture m then
        penaltyLoopF env mo bestMove d rem (i + 1) t
      else
        penaltyLoopF env mo bestMove d rem (i + 1)
          (malusAll env mo.color d m t.1 t.2)

/-- MoveOrder::updateHistories (moveorder.cpp lines 201-249): reinforce the
best move's key, then (unless index = 0, guarded to prevent reading past
the examined prefix) penalise the quiet moves at indices 0..index−2 that
precede the best move. -/
def MoveOrder.updateHistories (env : Env) (sp : SearchParameters)
    (ssi : SearchStackInfo) (mo : MoveOrder) (bestMove : Move) :
    SearchParameters × SearchStackInfo :=
  let histDepth := min mo.depth 12
  let t := bonusAll env mo.color histDepth bestMove sp ssi
  if mo.index = 0 then t
  else penaltyLoopF env mo bestMove histDepth (mo.index - 1) 0 t

/-- Pull moves repeatedly with `nextMove`, collecting results until the
NULL_MOVE exhaustion sentinel (or until fuel runs out). -/
def pullsAux (env : Env) (sp : SearchParameters) (ssi : SearchStackInfo) :
    Nat → MoveOrder → List Move
  | 0, _ => []
  | n + 1, mo =>
      let r := mo.nextMove env sp ssi
      if r.1 = NULL_MOVE then [] else r.1 :: pullsAux env sp ssi n r.2

/-- The full pull sequence of a node: iterate `nextMove` until exhaustion.
One more pull than the initial number of legal moves always suffices to
reach the sentinel, since every successful pull advances the cursor. -/
def pullsToExhaustion (env : Env) (sp : SearchParameters)
    (ssi : SearchStackInfo) (mo : MoveOrder) : List Move :=
  pullsAux env sp ssi (mo.legalMoves.length + 1) mo

/-- Run `n` pulls and keep only the final object state. -/
def runPulls (env : Env) (sp : SearchParameters) (ssi : SearchStackInfo) :
    Nat → MoveOrder → MoveOrder
  | 0, mo => mo
  | n + 1, mo => runPulls env sp ssi n (mo.nextMove env sp ssi).2

/-- An external request on the generator: a generateMoves call or a
nextMove call. -/
inductive MOOp where
  | gen
  | next

/-- Apply one external request. -/
def applyOp (env : Env) (sp : SearchParameters) (ssi : SearchStackInfo)
    (mo : MoveOrder) : MOOp → MoveOrder
  | .gen => mo.generateMoves env sp ssi
  | .next => (mo.nextMove env sp ssi).2

/-- Apply a sequence of external requests. -/
def execOps (env : Env) (sp : SearchParameters) (ssi : SearchStackInfo)
    (mo : MoveOrder) : List MOOp → MoveOrder
  | [] => mo
  | op :: ops => execOps env sp ssi (applyOp env sp ssi mo op) ops

/-- Numeric rank of a stage in the forward order
NONE → HASH_MOVE → CAPTURES → QUIETS. -/
def stageRank : MoveGenStage → Nat
  | .STAGE_NONE => 0
  | .STAGE_HASH_MOVE => 1
  | .STAGE_CAPTURES => 2
  | .STAGE_QUIETS => 3

/-- Iterate the reinforcement update on one history cell. -/
def histIter (d : Int) : Nat → Int → Int
  | 0, w => w
  | n + 1, w => histIter d n (histBonus d w)

/-- The score the staged generator attaches to a move: the capture formula
for captures, the quiet formula otherwise. -/
def mScore (env : Env) (sp : SearchParameters) (ssi : SearchStackInfo)
    (color : Nat) (m : Move) : Int :=
  if env.isCapture m then captureScore env color true m
  else quietScore env sp ssi color m

/-- Read the counter-move history cell (0 when the table is absent). -/
def cmhAt (ssi : SearchStackInfo) (p s : Nat) : Int :=
  match ssi.counterMoveHistory with
  | some f => f p s
  | none => 0

/-- Read the follow-up history cell (0 when the table is absent). -/
def fmhAt (ssi : SearchStackInfo) (p s : Nat) : Int :=
  match ssi.followupMoveHistory with
  | some f => f p s
  | none => 0

/-- A concrete environment used for evaluating the model on the example
scenario of the specification: moves 1 and 2 are captures (SEE +200 and
−50), move 3 is the first killer of ply 0, moves 4, 5, 7, 9 are quiet,
MVV/LVA tie-breaks are zero, piece identifiers are all 0 and destination
squares equal the move identifier. -/
def cenv : Env :=
  { isCapture := fun m => m == 1 || m == 2,
    getPromotion := fun _ => 0,
    getStartSq := fun m => m,
    getEndSq := fun m => m,
    getSEEForMove := fun _ m => if m == 1 then 200 else if m == 2 then -50 else 0,
    getExchangeScore := fun _ _ => 0,
    getMVVLVAScore := fun _ _ => 0,
    getPieceOnSquare := fun _ _ => 0 }

/-- Concrete heuristic store: all history weights zero, first killer of
ply 0 is move 3. -/
def csp : SearchParameters :=
  { historyTable := fun _ _ _ => 0,
    killers := fun ply slot => if ply == 0 && slot == 0 then 3 else 0 }

/-- Concrete stack context at ply 0 with no counter-move or follow-up
tables. -/
def cssi : SearchStackInfo :=
  { ply := 0, counterMoveHistory := none, followupMoveHistory := none }

/-- A generator state at the terminal stage with every scored move already
consumed. -/
def exhaustedState : MoveOrder :=
  { color := 0, depth := 1, isPVNode := true, mgStage := .STAGE_QUIETS,
    hashed := NULL_MOVE, legalMoves := [], scores := [], quietStart := 0,
    index := 0 }

/-- Reachability invariant of the staged generator on a node with no hash
move whose legal move list is a capture block `Lc` followed by a quiet
block `Lq`: after the first stage advance the stage is CAPTURES (scored
captures only) or QUIETS (everything scored), the cursor never passes the
scored prefix, the scored prefix is aligned with the move list through
`mScore`, and the sentinel never occurs in the list. -/
def Inv (env : Env) (sp : SearchParameters) (ssi : SearchStackInfo)
    (c0 : Nat) (Lc Lq : List Move) (mo : MoveOrder) : Prop :=
  mo.color = c0 ∧ mo.isPVNode = true ∧ mo.hashed = NULL_MOVE
  ∧ mo.index ≤ mo.scores.length
  ∧ mo.legalMoves.length = Lc.length + Lq.length
  ∧ (∀ k, k < mo.legalMoves.length → mo.legalMoves.getD k NULL_MOVE ≠ NULL_MOVE)
  ∧ (∀ k, k < mo.scores.length →
       mo.scores.getD k 0 = mScore env sp ssi c0 (mo.legalMoves.getD k NULL_MOVE))
  ∧ ((mo.mgStage = .STAGE_CAPTURES ∧ mo.quietStart = Lc.length
        ∧ mo.scores.length = Lc.length ∧ mo.legalMoves.drop Lc.length = Lq)
     ∨ (mo.mgStage = .STAGE_QUIETS ∧ mo.scores.length = mo.legalMoves.length))

/-- A move still waiting in the active (scored, unconsumed) window of the
selector. -/
def Tracked (mo : MoveOrder) (m : Move) : Prop :=
  ∃ q, mo.index ≤ q ∧ q < mo.scores.length ∧ mo.legalMoves.getD q NULL_MOVE = m

/-- The state a fresh no-hash-move PV node over the capture-partitioned
list Lc ++ Lq reaches when the first nextMove call finishes its internal
stage advance: stage CAPTURES with the captures scored. -/
def pvStartState (env : Env) (c0 : Nat) (depth : Int) (Lc Lq : List Move) : MoveOrder :=
  { color := c0, depth := depth, isPVNode := true, mgStage := .STAGE_CAPTURES,
    hashed := NULL_MOVE, legalMoves := Lc ++ Lq,
    scores := Lc.map (captureScore env c0 true), quietStart := Lc.length,
    index := 0 }

/-! ## Theorems -/

/-! ### List helpers -/

theorem getD_drop {α : Type} (l : List α) (n k : Nat) (d : α) :
    (l.drop n).getD k d = l.getD (n + k) d := by
  simp [List.getD_eq_getElem?_getD, List.getElem?_drop]

theorem listSwap_length {α : Type} (l : List α) (i j : Nat) :
    (listSwap l i j).length = l.length := by
  unfold listSwap
  cases h1 : l[i]? <;> cases h2 : l[j]? <;> simp [List.length_set]

theorem listSwap_getElem?_left {α : Type} (l : List α) (i j : Nat)
    (hi : i < l.length) (hj : j < l.length) :
    (listSwap l i j)[i]? = l[j]? := by
  unfold listSwap
  rw [List.getElem?_eq_getElem hi, List.getElem?_eq_getElem hj]
  dsimp only
  by_cases hij : i = j
  · subst hij
    exact List.getElem?_set_self (by rw [List.length_set]; exact hi)
  · rw [List.getElem?_set_ne (show j ≠ i from fun h => hij h.symm),
      List.getElem?_set_eq_of_lt _ hi]

theorem listSwap_getElem?_right {α : Type} (l : List α) (i j : Nat)
    (hi : i < l.length) (hj : j < l.length) :
    (listSwap l i j)[j]? = l[i]? := by
  unfold listSwap
  rw [List.getElem?_eq_getElem hi, List.getElem?_eq_getElem hj]
  dsimp only
  exact List.getElem?_set_self (by rw [List.length_set]; exact hj)

theorem listSwap_getElem?_other {α : Type} (l : List α) (i j k : Nat)
    (hk1 : k ≠ i) (hk2 : k ≠ j) :
    (listSwap l i j)[k]? = l[k]? := by
  unfold listSwap
  cases h1 : l[i]? with
  | none => rfl
  | some a =>
    cases h2 : l[j]? with
    | none => rfl
    | some b =>
      rw [List.getElem?_set_ne (show j ≠ k from fun h => hk2 h.symm),
        List.getElem?_set_ne (show i ≠ k from fun h => hk1 h.symm)]

theorem listSwap_getD_left {α : Type} (l : List α) (i j : Nat) (d : α)
    (hi : i < l.length) (hj : j < l.length) :
    (listSwap l i j).getD i d = l.getD j d := by
  rw [List.getD_eq_getElem?_getD, List.getD_eq_getElem?_getD,
    listSwap_getElem?_left l i j hi hj]

theorem listSwap_getD_right {α : Type} (l : List α) (i j : Nat) (d : α)
    (hi : i < l.length) (hj : j < l.length) :
    (listSwap l i j).getD j d = l.getD i d := by
  rw [List.getD_eq_getElem?_getD, List.getD_eq_getElem?_getD,
    listSwap_getElem?_right l i j hi hj]

theorem listSwap_getD_other {α : Type} (l : List α) (i j k : Nat) (d : α)
    (hk1 : k ≠ i) (hk2 : k ≠ j) :
    (listSwap l i j).getD k d = l.getD k d := by
  rw [List.getD_eq_getElem?_getD, List.getD_eq_getElem?_getD,
    listSwap_getElem?_other l i j k hk1 hk2]

theorem listSwap_drop {α : Type} (l : List α) (i j n : Nat)
    (hi : i < n) (hj : j < n) :
    (listSwap l i j).drop n = l.drop n := by
  apply List.ext_getElem?
  intro k
  rw [List.getElem?_drop, List.getElem?_drop]
  exact listSwap_getElem?_other l i j (n + k) (by omega) (by omega)

theorem findIdx_getD_false {α : Type} (p : α → Bool) (l : List α) (d : α) :
    ∀ k, k < l.findIdx p → p (l.getD k d) = false := by
  induction l with
  | nil =>
    intro k hk
    rw [show List.findIdx p ([] : List α) = 0 from rfl] at hk
    omega
  | cons a t ih =>
    intro k hk
    rw [List.findIdx_cons] at hk
    cases hpa : p a with
    | true => rw [hpa] at hk; simp at hk
    | false =>
      rw [hpa] at hk
      simp at hk
      cases k with
      | zero => simpa using hpa
      | succ k' => rw [List.getD_cons_succ]; exact ih k' (by omega)

/-! ### Frame and unfolding lemmas for the generator operations -/

theorem hashStage_eq (env : Env) (mo : MoveOrder) :
    mo.hashStage env =
      { mo with
        mgStage := .STAGE_CAPTURES,
        quietStart := mo.legalMoves.findIdx (fun m => !(env.isCapture m)),
        scores := mo.scores ++ (mo.legalMoves.take (mo.legalMoves.findIdx (fun m => !(env.isCapture m)))).map (captureScore env mo.color mo.isPVNode) } := rfl

theorem generateMoves_none_hash (env : Env) (sp : SearchParameters)
    (ssi : SearchStackInfo) (mo : MoveOrder)
    (h1 : mo.mgStage = .STAGE_NONE) (h2 : mo.hashed ≠ NULL_MOVE) :
    mo.generateMoves env sp ssi =
      { mo with
        mgStage := .STAGE_HASH_MOVE,
        legalMoves := mo.legalMoves.erase mo.hashed } := by
  unfold MoveOrder.generateMoves
  rw [h1]
  simp [h2]

theorem generateMoves_none_nohash (env : Env) (sp : SearchParameters)
    (ssi : SearchStackInfo) (mo : MoveOrder)
    (h1 : mo.mgStage = .STAGE_NONE) (h2 : mo.hashed = NULL_MOVE) :
    mo.generateMoves env sp ssi = mo.hashStage env := by
  unfold MoveOrder.generateMoves
  rw [h1]
  simp [h2]

theorem generateMoves_hash (env : Env) (sp : SearchParameters)
    (ssi : SearchStackInfo) (mo : MoveOrder) (h : mo.mgStage = .STAGE_HASH_MOVE) :
    mo.generateMoves env sp ssi = mo.hashStage env := by
  unfold MoveOrder.generateMoves
  rw [h]

theorem generateMoves_captures (env : Env) (sp : SearchParameters)
    (ssi : SearchStackInfo) (mo : MoveOrder) (h : mo.mgStage = .STAGE_CAPTURES) :
    mo.generateMoves env sp ssi =
      { mo with
        mgStage := .STAGE_QUIETS,
        scores := mo.scores ++ (mo.legalMoves.drop mo.quietStart).map (quietScore env sp ssi mo.color) } := by
  unfold MoveOrder.generateMoves
  rw [h]
  rfl

theorem generateMoves_quiets (env : Env) (sp : SearchParameters)
    (ssi : SearchStackInfo) (mo : MoveOrder) (h : mo.mgStage = .STAGE_QUIETS) :
    mo.generateMoves env sp ssi = mo := by
  unfold MoveOrder.generateMoves
  rw [h]

theorem genLoopF_succ (env : Env) (sp : SearchParameters) (ssi : SearchStackInfo)
    (n : Nat) (mo : MoveOrder) :
    MoveOrder.genLoopF env sp ssi (n + 1) mo =
      if mo.scores.length ≤ mo.index then
        (if mo.mgStage = .STAGE_QUIETS then mo
         else MoveOrder.genLoopF env sp ssi n (mo.generateMoves env sp ssi))
      else mo := rfl

theorem genLoop_of_index_lt (env : Env) (sp : SearchParameters)
    (ssi : SearchStackInfo) (mo : MoveOrder)
    (h : mo.index < mo.scores.length) : mo.genLoop env sp ssi = mo := by
  show MoveOrder.genLoopF env sp ssi (3 + 1) mo = mo
  rw [genLoopF_succ, if_neg (by omega)]

theorem genLoop_quiets (env : Env) (sp : SearchParameters)
    (ssi : SearchStackInfo) (mo : MoveOrder)
    (h : mo.mgStage = .STAGE_QUIETS) : mo.genLoop env sp ssi = mo := by
  show MoveOrder.genLoopF env sp ssi (3 + 1) mo = mo
  rw [genLoopF_succ]
  by_cases hl : mo.scores.length ≤ mo.index
  · rw [if_pos hl, if_pos h]
  · rw [if_neg hl]

theorem genLoop_captures_exhausted (env : Env) (sp : SearchParameters)
    (ssi : SearchStackInfo) (mo : MoveOrder) (h : mo.mgStage = .STAGE_CAPTURES)
    (hl : mo.scores.length ≤ mo.index) :
    mo.genLoop env sp ssi = mo.generateMoves env sp ssi := by
  show MoveOrder.genLoopF env sp ssi (3 + 1) mo = _
  rw [genLoopF_succ, if_pos hl, if_neg (by simp [h])]
  have hg := generateMoves_captures env sp ssi mo h
  show MoveOrder.genLoopF env sp ssi (2 + 1) _ = _
  rw [genLoopF_succ]
  by_cases h2 : (mo.generateMoves env sp ssi).scores.length ≤ (mo.generateMoves env sp ssi).index
  · rw [if_pos h2, if_pos (by rw [hg])]
  · rw [if_neg h2]

/-! ### The selection scan -/

theorem selFrom_spec (l : List Int) :
    ∀ (i bi : Nat) (bs : Int),
      bs ≤ (selFrom l i bi bs).2
      ∧ (∀ k, k < l.length → l.getD k 0 ≤ (selFrom l i bi bs).2)
      ∧ ((selFrom l i bi bs).1 = bi ∧ (selFrom l i bi bs).2 = bs
         ∨ ∃ k, k < l.length ∧ (selFrom l i bi bs).1 = i + k
             ∧ (selFrom l i bi bs).2 = l.getD k 0) := by
  induction l with
  | nil =>
    intro i bi bs
    refine ⟨le_refl _, ?_, Or.inl ⟨rfl, rfl⟩⟩
    intro k hk
    simp at hk
  | cons s rest ih =>
    intro i bi bs
    by_cases h : bs < s
    · have heq : selFrom (s :: rest) i bi bs = selFrom rest (i + 1) i s := by
        show (if bs < s then selFrom rest (i + 1) i s else selFrom rest (i + 1) bi bs) = _
        rw [if_pos h]
      obtain ⟨h1, h2, h3⟩ := ih (i + 1) i s
      rw [heq]
      refine ⟨le_trans (le_of_lt h) h1, ?_, ?_⟩
      · intro k hk
        cases k with
        | zero => rw [List.getD_cons_zero]; exact h1
        | succ q => rw [List.getD_cons_succ]; exact h2 q (by simpa using hk)
      · rcases h3 with ⟨hbi, hbs⟩ | ⟨k, hk, hbi, hbs⟩
        · refine Or.inr ⟨0, by simp, by omega, ?_⟩
          rw [hbs, List.getD_cons_zero]
        · refine Or.inr ⟨k + 1, by simpa using hk, by omega, ?_⟩
          rw [hbs, List.getD_cons_succ]
    · have heq : selFrom (s :: rest) i bi bs = selFrom rest (i + 1) bi bs := by
        show (if bs < s then selFrom rest (i + 1) i s else selFrom rest (i + 1) bi bs) = _
        rw [if_neg h]
      obtain ⟨h1, h2, h3⟩ := ih (i + 1) bi bs
      rw [heq]
      refine ⟨h1, ?_, ?_⟩
      · intro k hk
        cases k with
        | zero => rw [List.getD_cons_zero]; exact le_trans (not_lt.mp h) h1
        | succ q => rw [List.getD_cons_succ]; exact h2 q (by simpa using hk)
      · rcases h3 with ⟨hbi, hbs⟩ | ⟨k, hk, hbi, hbs⟩
        · exact Or.inl ⟨hbi, hbs⟩
        · refine Or.inr ⟨k + 1, by simpa using hk, by omega, ?_⟩
          rw [hbs, List.getD_cons_succ]

theorem selectPhase_eq (env : Env) (sp : SearchParameters)
    (ssi : SearchStackInfo) (mo : MoveOrder) :
    mo.selectPhase env sp ssi =
      (fun sel =>
        (fun mo2 =>
          (fun mo3 =>
            (mo3.legalMoves.getD mo3.index NULL_MOVE, { mo3 with index := mo3.index + 1 }))
          (if mo2.mgStage = .STAGE_CAPTURES ∧ sel.2 < SCORE_WINNING_CAPTURE
           then mo2.generateMoves env sp ssi else mo2))
        { mo with
          legalMoves := listSwap mo.legalMoves sel.1 mo.index,
          scores := listSwap mo.scores sel.1 mo.index })
      (selFrom (mo.scores.drop (mo.index + 1)) (mo.index + 1) mo.index
        (mo.scores.getD mo.index 0)) := rfl

/-- Characterisation of one selection step of nextMove, entered with the
cursor strictly inside the scored prefix: there is a selected index `bi`
holding a maximal score over the unconsumed window, whose move is returned;
the cursor advances; both lists undergo the same transposition; and the
eager CAPTURES→QUIETS transition appends the quiet scores exactly when the
selected score is below the winning-capture tier. -/
theorem selectPhase_spec (env : Env) (sp : SearchParameters)
    (ssi : SearchStackInfo) (mo : MoveOrder)
    (h : mo.index < mo.scores.length)
    (hsl : mo.scores.length ≤ mo.legalMoves.length) :
    ∃ bi, mo.index ≤ bi ∧ bi < mo.scores.length
      ∧ (∀ k, mo.index ≤ k → k < mo.scores.length →
          mo.scores.getD k 0 ≤ mo.scores.getD bi 0)
      ∧ (mo.selectPhase env sp ssi).1 = mo.legalMoves.getD bi NULL_MOVE
      ∧ (mo.selectPhase env sp ssi).2.index = mo.index + 1
      ∧ (mo.selectPhase env sp ssi).2.color = mo.color
      ∧ (mo.selectPhase env sp ssi).2.depth = mo.depth
      ∧ (mo.selectPhase env sp ssi).2.isPVNode = mo.isPVNode
      ∧ (mo.selectPhase env sp ssi).2.hashed = mo.hashed
      ∧ (mo.selectPhase env sp ssi).2.quietStart = mo.quietStart
      ∧ (mo.selectPhase env sp ssi).2.legalMoves = listSwap mo.legalMoves bi mo.index
      ∧ ((mo.mgStage = .STAGE_CAPTURES ∧ mo.scores.getD bi 0 < SCORE_WINNING_CAPTURE) →
          (mo.selectPhase env sp ssi).2.mgStage = .STAGE_QUIETS
          ∧ (mo.selectPhase env sp ssi).2.scores =
              listSwap mo.scores bi mo.index
                ++ ((listSwap mo.legalMoves bi mo.index).drop mo.quietStart).map
                    (quietScore env sp ssi mo.color))
      ∧ (¬(mo.mgStage = .STAGE_CAPTURES ∧ mo.scores.getD bi 0 < SCORE_WINNING_CAPTURE) →
          (mo.selectPhase env sp ssi).2.mgStage = mo.mgStage
          ∧ (mo.selectPhase env sp ssi).2.scores = listSwap mo.scores bi mo.index) := by
  obtain ⟨h1, h2, h3⟩ := selFrom_spec (mo.scores.drop (mo.index + 1)) (mo.index + 1)
    mo.index (mo.scores.getD mo.index 0)
  set sel := selFrom (mo.scores.drop (mo.index + 1)) (mo.index + 1) mo.index
    (mo.scores.getD mo.index 0) with hsel
  have hloc : mo.index ≤ sel.1 ∧ sel.1 < mo.scores.length ∧ sel.2 = mo.scores.getD sel.1 0 := by
    rcases h3 with ⟨hbi, hbs⟩ | ⟨k, hk, hbi, hbs⟩
    · exact ⟨by omega, by omega, by rw [hbi, hbs]⟩
    · rw [List.length_drop] at hk
      refine ⟨by omega, by omega, ?_⟩
      rw [hbs, getD_drop, ← hbi]
  obtain ⟨hbi1, hbi2, hbs⟩ := hloc
  have hmax : ∀ k, mo.index ≤ k → k < mo.scores.length →
      mo.scores.getD k 0 ≤ mo.scores.getD sel.1 0 := by
    intro k hk1 hk2
    rw [← hbs]
    rcases Nat.eq_or_lt_of_le hk1 with hk | hk
    · rw [← hk]; exact h1
    · have hk' : k - (mo.index + 1) < (mo.scores.drop (mo.index + 1)).length := by
        rw [List.length_drop]; omega
      have := h2 (k - (mo.index + 1)) hk'
      rw [getD_drop] at this
      have hke : mo.index + 1 + (k - (mo.index + 1)) = k := by omega
      rw [hke] at this
      exact this
  have hbl : sel.1 < mo.legalMoves.length := by omega
  have hil : mo.index < mo.legalMoves.length := by omega
  have hgen := generateMoves_captures env sp ssi
    { mo with
      legalMoves := listSwap mo.legalMoves sel.1 mo.index,
      scores := listSwap mo.scores sel.1 mo.index }
  refine ⟨sel.1, hbi1, hbi2, hmax, ?_, ?_, ?_, ?_, ?_, ?_, ?_, ?_, ?_, ?_⟩ <;>
    rw [selectPhase_eq env sp ssi mo, ← hsel] <;>
    dsimp only <;>
    by_cases hc : mo.mgStage = .STAGE_CAPTURES ∧ sel.2 < SCORE_WINNING_CAPTURE
  · rw [if_pos hc, hgen hc.1]
    dsimp only
    exact listSwap_getD_right mo.legalMoves sel.1 mo.index NULL_MOVE hbl hil
  · rw [if_neg hc]
    dsimp only
    exact listSwap_getD_right mo.legalMoves sel.1 mo.index NULL_MOVE hbl hil
  · rw [if_pos hc, hgen hc.1]
  · rw [if_neg hc]
  · rw [if_pos hc, hgen hc.1]
  · rw [if_neg hc]
  · rw [if_pos hc, hgen hc.1]
  · rw [if_neg hc]
  · rw [if_pos hc, hgen hc.1]
  · rw [if_neg hc]
  · rw [if_pos hc, hgen hc.1]
  · rw [if_neg hc]
  · rw [if_pos hc, hgen hc.1]
  · rw [if_neg hc]
  · rw [if_pos hc, hgen hc.1]
  · rw [if_neg hc]
  · intro hcc
    rw [if_pos hc, hgen hc.1]
    exact ⟨rfl, rfl⟩
  · intro hcc
    rw [hbs] at hc
    exact absurd hcc hc
  · intro hcc
    rw [hbs] at hc
    exact absurd hc hcc
  · intro hcc
    rw [if_neg hc]
    exact ⟨rfl, rfl⟩

/-! ### Stage monotonicity -/

theorem nextMove_eq (env : Env) (sp : SearchParameters) (ssi : SearchStackInfo)
    (mo : MoveOrder) :
    mo.nextMove env sp ssi =
      if mo.mgStage = .STAGE_HASH_MOVE then (mo.hashed, mo)
      else if (mo.genLoop env sp ssi).scores.length ≤ (mo.genLoop env sp ssi).index
        then (NULL_MOVE, mo.genLoop env sp ssi)
        else (mo.genLoop env sp ssi).selectPhase env sp ssi := rfl

theorem stageRank_le (s : MoveGenStage) : stageRank s ≤ 3 := by
  cases s <;> simp [stageRank]

theorem stageRank_eq_quiets (s : MoveGenStage) (h : stageRank s = 3) :
    s = .STAGE_QUIETS := by
  cases s <;> simp_all [stageRank]

theorem generateMoves_stage_mono (env : Env) (sp : SearchParameters)
    (ssi : SearchStackInfo) (mo : MoveOrder) :
    stageRank mo.mgStage ≤ stageRank (mo.generateMoves env sp ssi).mgStage := by
  cases h : mo.mgStage
  · by_cases hh : mo.hashed = NULL_MOVE
    · rw [generateMoves_none_nohash env sp ssi mo h hh, hashStage_eq]
      simp [stageRank]
    · rw [generateMoves_none_hash env sp ssi mo h hh]
      simp [stageRank]
  · rw [generateMoves_hash env sp ssi mo h, hashStage_eq]
    simp [stageRank]
  · rw [generateMoves_captures env sp ssi mo h]
    simp [stageRank]
  · rw [generateMoves_quiets env sp ssi mo h, h]

theorem genLoopF_stage_mono (env : Env) (sp : SearchParameters)
    (ssi : SearchStackInfo) :
    ∀ (n : Nat) (mo : MoveOrder),
      stageRank mo.mgStage ≤ stageRank (MoveOrder.genLoopF env sp ssi n mo).mgStage := by
  intro n
  induction n with
  | zero => intro mo; exact le_refl _
  | succ n ih =>
    intro mo
    rw [genLoopF_succ]
    by_cases h1 : mo.scores.length ≤ mo.index
    · rw [if_pos h1]
      by_cases h2 : mo.mgStage = .STAGE_QUIETS
      · rw [if_pos h2]
      · rw [if_neg h2]
        exact le_trans (generateMoves_stage_mono env sp ssi mo) (ih _)
    · rw [if_neg h1]

theorem selectPhase_stage_mono (env : Env) (sp : SearchParameters)
    (ssi : SearchStackInfo) (mo : MoveOrder) :
    stageRank mo.mgStage ≤ stageRank (mo.selectPhase env sp ssi).2.mgStage := by
  rw [selectPhase_eq]
  dsimp only
  split
  · have h2 := generateMoves_stage_mono env sp ssi
      { mo with
        legalMoves := listSwap mo.legalMoves (selFrom (mo.scores.drop (mo.index + 1)) (mo.index + 1) mo.index (mo.scores.getD mo.index 0)).1 mo.index,
        scores := listSwap mo.scores (selFrom (mo.scores.drop (mo.index + 1)) (mo.index + 1) mo.index (mo.scores.getD mo.index 0)).1 mo.index }
    exact h2
  · exact le_refl _

theorem nextMove_stage_mono (env : Env) (sp : SearchParameters)
    (ssi : SearchStackInfo) (mo : MoveOrder) :
    stageRank mo.mgStage ≤ stageRank (mo.nextMove env sp ssi).2.mgStage := by
  rw [nextMove_eq]
  by_cases h : mo.mgStage = .STAGE_HASH_MOVE
  · rw [if_pos h]
  · rw [if_neg h]
    have hg : stageRank mo.mgStage ≤ stageRank (mo.genLoop env sp ssi).mgStage :=
      genLoopF_stage_mono env sp ssi 4 mo
    by_cases h2 : (mo.genLoop env sp ssi).scores.length ≤ (mo.genLoop env sp ssi).index
    · rw [if_pos h2]
      exact hg
    · rw [if_neg h2]
      exact le_trans hg (selectPhase_stage_mono env sp ssi _)

theorem execOps_stage_mono (env : Env) (sp : SearchParameters)
    (ssi : SearchStackInfo) :
    ∀ (ops : List MOOp) (mo : MoveOrder),
      stageRank mo.mgStage ≤ stageRank (execOps env sp ssi mo ops).mgStage := by
  intro ops
  induction ops with
  | nil => intro mo; exact le_refl _
  | cons op rest ih =>
    intro mo
    show stageRank mo.mgStage ≤
      stageRank (execOps env sp ssi (applyOp env sp ssi mo op) rest).mgStage
    refine le_trans ?_ (ih _)
    cases op
    · exact generateMoves_stage_mono env sp ssi mo
    · exact nextMove_stage_mono env sp ssi mo

theorem nextMove_exhausted (env : Env) (sp : SearchParameters)
    (ssi : SearchStackInfo) (mo : MoveOrder)
    (h1 : mo.mgStage = .STAGE_QUIETS) (h2 : mo.scores.length ≤ mo.index) :
    mo.nextMove env sp ssi = (NULL_MOVE, mo) := by
  rw [nextMove_eq, if_neg (by simp [h1]), genLoop_quiets env sp ssi mo h1, if_pos h2]

/-- Claim C9: over any sequence of generateMoves and nextMove requests the
stage only moves forward along NONE → HASH_MOVE → CAPTURES → QUIETS, the
terminal stage QUIETS is never left, and once the generator is at QUIETS
with its scored moves consumed, a nextMove request reports exhaustion
(NULL_MOVE) and leaves the state unchanged. -/
theorem c9_stage_machine (env : Env) (sp : SearchParameters)
    (ssi : SearchStackInfo) (mo : MoveOrder) (ops : List MOOp) :
    stageRank mo.mgStage ≤ stageRank (execOps env sp ssi mo ops).mgStage
    ∧ (mo.mgStage = .STAGE_QUIETS →
        (execOps env sp ssi mo ops).mgStage = .STAGE_QUIETS)
    ∧ (mo.mgStage = .STAGE_QUIETS → mo.scores.length ≤ mo.index →
        mo.nextMove env sp ssi = (NULL_MOVE, mo)) := by
  refine ⟨execOps_stage_mono env sp ssi ops mo, ?_,
    fun h1 h2 => nextMove_exhausted env sp ssi mo h1 h2⟩
  intro h
  have h3 := execOps_stage_mono env sp ssi ops mo
  rw [h] at h3
  simp [stageRank] at h3
  exact stageRank_eq_quiets _
    (le_antisymm (stageRank_le (execOps env sp ssi mo ops).mgStage) h3)

/-- Claim C9 witness: a terminal exhausted state stays at STAGE_QUIETS
under further requests and reports exhaustion without changing state. -/
theorem c9_witness :
    (execOps cenv csp cssi exhaustedState [MOOp.gen, MOOp.next]).mgStage
        = MoveGenStage.STAGE_QUIETS
    ∧ MoveOrder.nextMove cenv csp cssi exhaustedState = (NULL_MOVE, exhaustedState) :=
  ⟨(c9_stage_machine cenv csp cssi exhaustedState [MOOp.gen, MOOp.next]).2.1 rfl,
   (c9_stage_machine cenv csp cssi exhaustedState [MOOp.gen, MOOp.next]).2.2 rfl
     (by decide)⟩

/-- Claim C1 (code evaluation): a fresh MoveOrder over the legal move set
S = [7] with predicted move h = 7 ∈ S, pulled repeatedly with nextMove,
reaches exhaustion without ever yielding 7: the pull sequence is empty, so
pulling until exhaustion does not return every move of S.  The hash move is
erased from MoveList in the NONE stage, but nextMove only returns `hashed`
while mgStage is STAGE_HASH_MOVE, and the internal while loop advances the
stage past STAGE_HASH_MOVE before any move is returned. -/
theorem c1_hash_move_never_yielded :
    pullsToExhaustion cenv csp cssi (MoveOrder.init 0 6 true 7 [7]) = []
      ∧ (7 : Move) ∈ [7] := by decide

/-- Claim C2 (code evaluation): with legal move set S = [1, 7] (1 a
capture, 7 quiet) and predicted move h = 7 ∈ S, the first nextMove call on
a fresh MoveOrder returns the capture 1, not the predicted move 7. -/
theorem c2_first_pull_not_hash :
    (MoveOrder.nextMove cenv csp cssi (MoveOrder.init 0 6 true 7 [1, 7])).1 = 1
      ∧ (1 : Move) ≠ 7 := by decide

/-- Claim C4 (code evaluation): in the specification's example scenario
(H = 5 predicted, C1 = 1 capture with SEE +200, C2 = 2 capture with SEE
−50, K = 3 the ply's first killer, Q = 4 quiet, PV node), pulling to
exhaustion yields [1, 2, 3, 4]: the predicted move 5 is never yielded, and
the losing capture 2 comes out before the killer 3 — not the claimed
H, C1, K, C2, Q order.  The eager CAPTURES→QUIETS transition happens after
the selection swap, so the capture that triggered it is still returned
first. -/
theorem c4_example_pull_order :
    pullsToExhaustion cenv csp cssi (MoveOrder.init 0 6 true 5 [1, 2, 5, 3, 4])
      = [1, 2, 3, 4] := by decide

/-- Claim C5 counterexample: in the example scenario, after pulling all
moves, feedback with bestMove = K (move 3) at depth 6 leaves Q's (move 4's)
main-history entry unchanged; it does not decrease by 36 minus the decay
term (histMalus 6 0 = −36).  Q is pulled after K, and the penalty loop both
stops at the best move and never reaches the last pulled index. -/
theorem c5_quiet_entry_not_penalised :
    ((MoveOrder.updateHistories cenv csp cssi
        (runPulls cenv csp cssi 4 (MoveOrder.init 0 6 true 5 [1, 2, 5, 3, 4])) 3).1).historyTable 0 0 4
      = csp.historyTable 0 0 4
    ∧ ((MoveOrder.updateHistories cenv csp cssi
        (runPulls cenv csp cssi 4 (MoveOrder.init 0 6 true 5 [1, 2, 5, 3, 4])) 3).1).historyTable 0 0 4
      ≠ histMalus 6 (csp.historyTable 0 0 4) := by decide

/-- Claim C5 amended: in the example scenario after pulling to exhaustion,
feedback with bestMove = K (move 3) and depth 6 applies the reinforcement
w − 6·w/64 + 36 to K's main-history entry (0 becomes 36), leaves the
capture entries of C1 (move 1) and C2 (move 2) untouched by the quiet
penalty loop, and also leaves Q's (move 4's) entry unchanged, because Q was
pulled after K. -/
theorem c5_feedback_example :
    ((MoveOrder.updateHistories cenv csp cssi
        (runPulls cenv csp cssi 4 (MoveOrder.init 0 6 true 5 [1, 2, 5, 3, 4])) 3).1).historyTable 0 0 3
      = histBonus 6 (csp.historyTable 0 0 3)
    ∧ ((MoveOrder.updateHistories cenv csp cssi
        (runPulls cenv csp cssi 4 (MoveOrder.init 0 6 true 5 [1, 2, 5, 3, 4])) 3).1).historyTable 0 0 1
      = csp.historyTable 0 0 1
    ∧ ((MoveOrder.updateHistories cenv csp cssi
        (runPulls cenv csp cssi 4 (MoveOrder.init 0 6 true 5 [1, 2, 5, 3, 4])) 3).1).historyTable 0 0 2
      = csp.historyTable 0 0 2
    ∧ ((MoveOrder.updateHistories cenv csp cssi
        (runPulls cenv csp cssi 4 (MoveOrder.init 0 6 true 5 [1, 2, 5, 3, 4])) 3).1).historyTable 0 0 4
      = csp.historyTable 0 0 4 := by decide

/-- Claim C3 counterexample: updateHistories invoked with the cursor at its
initial position (index = 0, fresh MoveOrder) does change a heuristic
table: the best move's main-history entry receives the reinforcement update
(0 becomes 36 at depth 6), so not every entry is left unchanged. -/
theorem c3_tables_do_change :
    ((MoveOrder.updateHistories cenv csp cssi (MoveOrder.init 0 6 true 0 []) 9).1).historyTable 0 0 9 = 36
    ∧ csp.historyTable 0 0 9 = 0 := by decide

/-- Claim C3 amended: when updateHistories is invoked with index = 0, the
quiet-penalty loop is skipped, so the only change is the best-move
reinforcement: every main-history entry other than the best move's
(side, piece, destination) key is unchanged, that key receives
w − d·w/64 + d² with d = min(depth, 12); the counter-move and follow-up
tables, when present, likewise receive w − d·w/64 + d² at the best move's
(piece, destination) key and are unchanged at every other key (remaining
absent when absent); and the killer table is untouched. -/
theorem c3_index_zero_frame (env : Env) (sp : SearchParameters)
    (ssi : SearchStackInfo) (mo : MoveOrder) (bm : Move)
    (h : mo.index = 0) :
    (∀ c p s,
        ¬(c = mo.color ∧ p = env.getPieceOnSquare mo.color (env.getStartSq bm)
            ∧ s = env.getEndSq bm) →
        ((MoveOrder.updateHistories env sp ssi mo bm).1).historyTable c p s
          = sp.historyTable c p s)
    ∧ ((MoveOrder.updateHistories env sp ssi mo bm).1).historyTable
          mo.color (env.getPieceOnSquare mo.color (env.getStartSq bm)) (env.getEndSq bm)
        = histBonus (min mo.depth 12)
            (sp.historyTable mo.color
              (env.getPieceOnSquare mo.color (env.getStartSq bm)) (env.getEndSq bm))
    ∧ (∀ p s,
        ¬(p = env.getPieceOnSquare mo.color (env.getStartSq bm) ∧ s = env.getEndSq bm) →
        cmhAt (MoveOrder.updateHistories env sp ssi mo bm).2 p s = cmhAt ssi p s
        ∧ fmhAt (MoveOrder.updateHistories env sp ssi mo bm).2 p s = fmhAt ssi p s)
    ∧ (∀ f, ssi.counterMoveHistory = some f →
        cmhAt (MoveOrder.updateHistories env sp ssi mo bm).2
            (env.getPieceOnSquare mo.color (env.getStartSq bm)) (env.getEndSq bm)
          = histBonus (min mo.depth 12)
              (f (env.getPieceOnSquare mo.color (env.getStartSq bm)) (env.getEndSq bm)))
    ∧ (ssi.counterMoveHistory = none →
        (MoveOrder.updateHistories env sp ssi mo bm).2.counterMoveHistory = none)
    ∧ (∀ f, ssi.followupMoveHistory = some f →
        fmhAt (MoveOrder.updateHistories env sp ssi mo bm).2
            (env.getPieceOnSquare mo.color (env.getStartSq bm)) (env.getEndSq bm)
          = histBonus (min mo.depth 12)
              (f (env.getPieceOnSquare mo.color (env.getStartSq bm)) (env.getEndSq bm)))
    ∧ (ssi.followupMoveHistory = none →
        (MoveOrder.updateHistories env sp ssi mo bm).2.followupMoveHistory = none)
    ∧ ((MoveOrder.updateHistories env sp ssi mo bm).1).killers = sp.killers := by
  have hupd : MoveOrder.updateHistories env sp ssi mo bm
      = bonusAll env mo.color (min mo.depth 12) bm sp ssi := by
    unfold MoveOrder.updateHistories
    rw [if_pos h]
  rw [hupd]
  unfold bonusAll
  dsimp only
  refine ⟨?_, ?_, ?_, ?_, ?_, ?_, ?_, rfl⟩
  · intro c p s hne
    unfold upd3
    rw [if_neg hne]
  · unfold upd3
    rw [if_pos ⟨rfl, rfl, rfl⟩]
  · intro p s hne
    constructor
    · unfold cmhAt
      cases ssi.counterMoveHistory with
      | none => rfl
      | some f =>
        dsimp only [Option.map]
        unfold upd2
        rw [if_neg hne]
    · unfold fmhAt
      cases ssi.followupMoveHistory with
      | none => rfl
      | some f =>
        dsimp only [Option.map]
        unfold upd2
        rw [if_neg hne]
  · intro f hf
    unfold cmhAt
    rw [hf]
    dsimp only [Option.map]
    unfold upd2
    rw [if_pos ⟨rfl, rfl⟩]
  · intro hf
    rw [hf]
    rfl
  · intro f hf
    unfold fmhAt
    rw [hf]
    dsimp only [Option.map]
    unfold upd2
    rw [if_pos ⟨rfl, rfl⟩]
  · intro hf
    rw [hf]
    rfl

/-- Claim C3 witness: at a concrete index-0 state, an off-key main-history
entry is unchanged by the feedback call, and the absent counter-move table
stays absent. -/
theorem c3_witness :
    ((MoveOrder.updateHistories cenv csp cssi (MoveOrder.init 0 6 true 0 []) 9).1).historyTable 1 0 5
      = csp.historyTable 1 0 5
    ∧ (MoveOrder.updateHistories cenv csp cssi (MoveOrder.init 0 6 true 0 []) 9).2.counterMoveHistory
      = none :=
  ⟨(c3_index_zero_frame cenv csp cssi (MoveOrder.init 0 6 true 0 []) 9 rfl).1 1 0 5
    (by decide),
   (c3_index_zero_frame cenv csp cssi (MoveOrder.init 0 6 true 0 []) 9 rfl).2.2.2.2.1 rfl⟩

/-- Claim C7 counterexample: on the list [3] in which no move is a
capture, findQuietStart sets QuietStart to 0 (the index of the first
non-capture), not to MoveList.size() = 1 as the claim's last clause
states. -/
theorem c7_no_captures_value :
    ((MoveOrder.init 0 6 true 0 [3]).legalMoves).all (fun m => !(cenv.isCapture m)) = true
    ∧ ((MoveOrder.init 0 6 true 0 [3]).findQuietStart cenv).quietStart = 0
    ∧ ((MoveOrder.init 0 6 true 0 [3]).findQuietStart cenv).quietStart
        ≠ ((MoveOrder.init 0 6 true 0 [3]).findQuietStart cenv).legalMoves.length := by
  decide

/-- Claim C7 amended: findQuietStart scans MoveList for the first
non-capture move and records its index as QuietStart, so every index below
QuietStart holds a capture; QuietStart never exceeds the list length and
equals MoveList.size() exactly when every move is a capture (not when none
is); and provided the list is capture-partitioned (captures before quiets,
the order in which the external move generator produces it), every index at
or above QuietStart holds a quiet move. -/
theorem c7_quietStart_partition (env : Env) (mo : MoveOrder) :
    (∀ k, k < (mo.findQuietStart env).quietStart →
        env.isCapture (mo.legalMoves.getD k NULL_MOVE) = true)
    ∧ (mo.findQuietStart env).quietStart ≤ mo.legalMoves.length
    ∧ ((mo.findQuietStart env).quietStart = mo.legalMoves.length ↔
        ∀ m ∈ mo.legalMoves, env.isCapture m = true)
    ∧ ((∀ i j, i ≤ j → j < mo.legalMoves.length →
          env.isCapture (mo.legalMoves.getD j NULL_MOVE) = true →
          env.isCapture (mo.legalMoves.getD i NULL_MOVE) = true) →
        ∀ k, (mo.findQuietStart env).quietStart ≤ k → k < mo.legalMoves.length →
          env.isCapture (mo.legalMoves.getD k NULL_MOVE) = false) := by
  have hq : (mo.findQuietStart env).quietStart
      = mo.legalMoves.findIdx (fun m => !(env.isCapture m)) := rfl
  rw [hq]
  refine ⟨?_, List.findIdx_le_length _, ?_, ?_⟩
  · intro k hk
    have hf := findIdx_getD_false (fun m => !(env.isCapture m)) mo.legalMoves NULL_MOVE k hk
    simpa using hf
  · rw [List.findIdx_eq_length]
    constructor
    · intro hall m hm
      have hf := hall m hm
      simpa using hf
    · intro hall m hm
      simp [hall m hm]
  · intro hsorted k hk1 hk2
    have hqlen : mo.legalMoves.findIdx (fun m => !(env.isCapture m))
        < mo.legalMoves.length := by omega
    have hfi := @List.findIdx_getElem _ (fun m => !(env.isCapture m)) mo.legalMoves hqlen
    simp only [Bool.not_eq_true'] at hfi
    cases hval : env.isCapture (mo.legalMoves.getD k NULL_MOVE) with
    | false => rfl
    | true =>
      have hqs_cap := hsorted _ k hk1 hk2 hval
      rw [List.getD_eq_getElem?_getD, List.getElem?_eq_getElem hqlen] at hqs_cap
      simp only [Option.getD_some] at hqs_cap
      rw [hfi] at hqs_cap
      cases hqs_cap

/-- Claim C7 witness: on the capture-partitioned list [1, 3] (capture 1
then quiet 3), the entry at QuietStart = 1 is a quiet move. -/
theorem c7_witness :
    cenv.isCapture ((MoveOrder.init 0 6 true 0 [1, 3]).legalMoves.getD 1 NULL_MOVE) = false :=
  (c7_quietStart_partition cenv (MoveOrder.init 0 6 true 0 [1, 3])).2.2.2
    (by
      intro i j hij hj hc
      have hj2 : j < 2 := by simpa using hj
      clear hj
      interval_cases j
      · interval_cases i
        exact hc
      · exact absurd hc (by decide))
    1 (by decide) (by decide)

/-! ### History-weight boundedness -/

theorem tdiv64_of_nonneg (a : Int) (h : 0 ≤ a) : a.tdiv 64 = a / 64 := by
  match a, h with
  | Int.ofNat m, _ => rfl

theorem tdiv64_of_neg (a : Int) (h : a < 0) : a.tdiv 64 = -(-a / 64) := by
  rw [show a = -(-a) from by ring, Int.neg_tdiv, Int.neg_neg]
  congr 1
  match a, h with
  | Int.negSucc m, _ => rfl

/-- One reinforcement step keeps a weight inside any symmetric band of
radius at least 832: the decay term d·w/64 grows with the magnitude of the
weight while the bonus d² is at most 144. -/
theorem histBonus_bound_step (d w B : Int) (hd1 : 1 ≤ d) (hd2 : d ≤ 12)
    (hB : 832 ≤ B) (hw1 : -B ≤ w) (hw2 : w ≤ B) :
    -B ≤ histBonus d w ∧ histBonus d w ≤ B := by
  unfold histBonus
  rcases le_or_lt 0 w with hw | hw
  · rw [tdiv64_of_nonneg (d * w) (mul_nonneg (by omega) hw)]
    interval_cases d <;> constructor <;> omega
  · rw [tdiv64_of_neg (d * w) (mul_neg_of_pos_of_neg (by omega) hw)]
    interval_cases d <;> constructor <;> omega

theorem histIter_bound (d B : Int) (hd1 : 1 ≤ d) (hd2 : d ≤ 12) (hB : 832 ≤ B) :
    ∀ (n : Nat) (w : Int), -B ≤ w → w ≤ B →
      -B ≤ histIter d n w ∧ histIter d n w ≤ B := by
  intro n
  induction n with
  | zero => intro w h1 h2; exact ⟨h1, h2⟩
  | succ n ih =>
    intro w h1 h2
    have hstep := histBonus_bound_step d w B hd1 hd2 hB h1 h2
    exact ih (histBonus d w) hstep.1 hstep.2

/-- Claim C8: for any depth ≥ 1 (so d = min(depth, 12) satisfies
1 ≤ d ≤ 12) and any starting weight, iterating the best-move reinforcement
w ← w − d·w/64 + d² of updateHistories keeps the weight bounded for every
iteration count: it stays within max(|w₀|, 832). -/
theorem c8_history_weight_bounded (depth : Int) (hd : 1 ≤ depth)
    (w0 : Int) (n : Nat) :
    |histIter (min depth 12) n w0| ≤ max |w0| 832 := by
  have hd1 : 1 ≤ min depth 12 := le_min hd (by norm_num)
  have hd2 : min depth 12 ≤ 12 := min_le_right _ _
  have hB : (832 : Int) ≤ max |w0| 832 := le_max_right _ _
  have h1 : -(max |w0| 832) ≤ w0 := by
    have := neg_abs_le w0
    have h2 : -(max |w0| 832) ≤ -|w0| := neg_le_neg (le_max_left _ _)
    omega
  have h2 : w0 ≤ max |w0| 832 := le_trans (le_abs_self w0) (le_max_left _ _)
  have hres := histIter_bound (min depth 12) (max |w0| 832) hd1 hd2 hB n w0 h1 h2
  exact abs_le.mpr hres

/-- Claim C8 witness: at depth 6 from weight 0, five iterations stay within
the bound. -/
theorem c8_witness :
    |histIter (min (6 : Int) 12) 5 0| ≤ max |(0 : Int)| 832 :=
  c8_history_weight_bounded 6 (by norm_num) 0 5

/-! ### Exhaustion behaviour -/

theorem genLoopF_quiets (env : Env) (sp : SearchParameters)
    (ssi : SearchStackInfo) (n : Nat) (mo : MoveOrder)
    (h : mo.mgStage = .STAGE_QUIETS) :
    MoveOrder.genLoopF env sp ssi n mo = mo := by
  cases n with
  | zero => rfl
  | succ n =>
    rw [genLoopF_succ]
    by_cases hl : mo.scores.length ≤ mo.index
    · rw [if_pos hl, if_pos h]
    · rw [if_neg hl]

theorem selectPhase_ne_null (env : Env) (sp : SearchParameters)
    (ssi : SearchStackInfo) (mo : MoveOrder)
    (h : mo.index < mo.scores.length)
    (hsl : mo.scores.length ≤ mo.legalMoves.length)
    (hnn : ∀ k, k < mo.legalMoves.length → mo.legalMoves.getD k NULL_MOVE ≠ NULL_MOVE) :
    (mo.selectPhase env sp ssi).1 ≠ NULL_MOVE := by
  obtain ⟨bi, h1, h2, _, hr, _⟩ := selectPhase_spec env sp ssi mo h hsl
  rw [hr]
  exact hnn bi (by omega)

/-! ### Invariant preservation for the no-hash-move PV pull trace -/

theorem getD_mem {α : Type} (l : List α) (k : Nat) (d : α) (h : k < l.length) :
    l.getD k d ∈ l := by
  rw [List.getD_eq_getElem?_getD, List.getElem?_eq_getElem h]
  exact List.getElem_mem h

theorem getD_map_int (f : Move → Int) (l : List Move) (k : Nat) (h : k < l.length) :
    (l.map f).getD k 0 = f (l.getD k NULL_MOVE) := by
  rw [List.getD_eq_getElem?_getD, List.getD_eq_getElem?_getD, List.getElem?_map,
    List.getElem?_eq_getElem h]
  rfl

theorem pullsAux_succ (env : Env) (sp : SearchParameters) (ssi : SearchStackInfo)
    (n : Nat) (mo : MoveOrder) :
    pullsAux env sp ssi (n + 1) mo =
      if (mo.nextMove env sp ssi).1 = NULL_MOVE then []
      else (mo.nextMove env sp ssi).1 :: pullsAux env sp ssi n (mo.nextMove env sp ssi).2 := rfl

theorem Inv_stage_ne_hash (env : Env) (sp : SearchParameters) (ssi : SearchStackInfo)
    (c0 : Nat) (Lc Lq : List Move) (mo : MoveOrder)
    (hInv : Inv env sp ssi c0 Lc Lq mo) : mo.mgStage ≠ .STAGE_HASH_MOVE := by
  rcases hInv.2.2.2.2.2.2.2 with ⟨h, _⟩ | ⟨h, _⟩ <;> simp [h]

theorem Inv_scores_le (env : Env) (sp : SearchParameters) (ssi : SearchStackInfo)
    (c0 : Nat) (Lc Lq : List Move) (mo : MoveOrder)
    (hInv : Inv env sp ssi c0 Lc Lq mo) :
    mo.scores.length ≤ mo.legalMoves.length := by
  obtain ⟨_, _, _, _, hlen, _, _, hstage⟩ := hInv
  rcases hstage with ⟨_, _, h3, _⟩ | ⟨_, h2⟩ <;> omega

/-- One selection step from a state satisfying the invariant with an
unconsumed scored window: the invariant is preserved, the cursor advances,
a non-sentinel move of maximal `mScore` over the window is returned, and
every other tracked move stays tracked. -/
theorem step_Inv (env : Env) (sp : SearchParameters) (ssi : SearchStackInfo)
    (c0 : Nat) (Lc Lq : List Move)
    (hLq : ∀ m ∈ Lq, env.isCapture m = false)
    (mo : MoveOrder)
    (hInv : Inv env sp ssi c0 Lc Lq mo)
    (hne : mo.index < mo.scores.length) :
    Inv env sp ssi c0 Lc Lq (mo.nextMove env sp ssi).2
    ∧ (mo.nextMove env sp ssi).2.index = mo.index + 1
    ∧ (mo.nextMove env sp ssi).2.legalMoves.length = mo.legalMoves.length
    ∧ (mo.nextMove env sp ssi).1 ≠ NULL_MOVE
    ∧ (∀ m, Tracked mo m →
        mScore env sp ssi c0 m ≤ mScore env sp ssi c0 (mo.nextMove env sp ssi).1
        ∧ ((mo.nextMove env sp ssi).1 = m ∨ Tracked (mo.nextMove env sp ssi).2 m)) := by
  obtain ⟨hcol, hpv, hhash, hidx, hlen, hnn, halign, hstage⟩ := hInv
  have hH : mo.mgStage ≠ .STAGE_HASH_MOVE :=
    Inv_stage_ne_hash env sp ssi c0 Lc Lq mo
      ⟨hcol, hpv, hhash, hidx, hlen, hnn, halign, hstage⟩
  have hsl : mo.scores.length ≤ mo.legalMoves.length :=
    Inv_scores_le env sp ssi c0 Lc Lq mo
      ⟨hcol, hpv, hhash, hidx, hlen, hnn, halign, hstage⟩
  have hg : mo.genLoop env sp ssi = mo := genLoop_of_index_lt env sp ssi mo hne
  obtain ⟨bi, hbi1, hbi2, hmax, hret, hidx', hcol', hdep', hpv', hhash', hqs',
    hlegal', hthen, helse⟩ := selectPhase_spec env sp ssi mo hne hsl
  have hr_eq : mo.nextMove env sp ssi = mo.selectPhase env sp ssi := by
    rw [nextMove_eq, if_neg hH, hg, if_neg (by omega)]
  rw [hr_eq]
  have hbl : bi < mo.legalMoves.length := by omega
  have hil : mo.index < mo.legalMoves.length := by omega
  have hrnn : (mo.selectPhase env sp ssi).1 ≠ NULL_MOVE := by
    rw [hret]
    exact hnn bi hbl
  have hmsr : mScore env sp ssi c0 ((mo.selectPhase env sp ssi).1)
      = mo.scores.getD bi 0 := by
    rw [hret]
    exact (halign bi hbi2).symm
  have hswlen : (listSwap mo.scores bi mo.index).length = mo.scores.length :=
    listSwap_length mo.scores bi mo.index
  have hlglen : (listSwap mo.legalMoves bi mo.index).length = mo.legalMoves.length :=
    listSwap_length mo.legalMoves bi mo.index
  have hscores_len' : mo.scores.length ≤ (mo.selectPhase env sp ssi).2.scores.length := by
    by_cases hcond : mo.mgStage = .STAGE_CAPTURES
        ∧ mo.scores.getD bi 0 < SCORE_WINNING_CAPTURE
    · rw [(hthen hcond).2]
      rw [List.length_append, hswlen]
      omega
    · rw [(helse hcond).2, hswlen]
  -- the swapped legal list seen through getD
  have hlg_at : ∀ k, k < mo.legalMoves.length →
      (listSwap mo.legalMoves bi mo.index).getD k NULL_MOVE
        = mo.legalMoves.getD (if k = bi then mo.index else if k = mo.index then bi else k)
            NULL_MOVE := by
    intro k hk
    by_cases hkb : k = bi
    · rw [if_pos hkb, hkb]
      exact listSwap_getD_left mo.legalMoves bi mo.index NULL_MOVE hbl hil
    · by_cases hki : k = mo.index
      · rw [if_neg hkb, if_pos hki, hki]
        exact listSwap_getD_right mo.legalMoves bi mo.index NULL_MOVE hbl hil
      · rw [if_neg hkb, if_neg hki]
        exact listSwap_getD_other mo.legalMoves bi mo.index k NULL_MOVE hkb hki
  have hsc_at : ∀ k, k < mo.scores.length →
      (listSwap mo.scores bi mo.index).getD k 0
        = mo.scores.getD (if k = bi then mo.index else if k = mo.index then bi else k) 0 := by
    intro k hk
    by_cases hkb : k = bi
    · rw [if_pos hkb, hkb]
      exact listSwap_getD_left mo.scores bi mo.index 0 hbi2 hne
    · by_cases hki : k = mo.index
      · rw [if_neg hkb, if_pos hki, hki]
        exact listSwap_getD_right mo.scores bi mo.index 0 hbi2 hne
      · rw [if_neg hkb, if_neg hki]
        exact listSwap_getD_other mo.scores bi mo.index k 0 hkb hki
  have halign_swap : ∀ k, k < mo.scores.length →
      (listSwap mo.scores bi mo.index).getD k 0
        = mScore env sp ssi c0
            ((listSwap mo.legalMoves bi mo.index).getD k NULL_MOVE) := by
    intro k hk
    rw [hsc_at k hk, hlg_at k (by omega)]
    by_cases hkb : k = bi
    · rw [if_pos hkb]
      exact halign mo.index hne
    · by_cases hki : k = mo.index
      · rw [if_neg hkb, if_pos hki]
        exact halign bi hbi2
      · rw [if_neg hkb, if_neg hki]
        exact halign k hk
  have hnn' : ∀ k, k < (mo.selectPhase env sp ssi).2.legalMoves.length →
      (mo.selectPhase env sp ssi).2.legalMoves.getD k NULL_MOVE ≠ NULL_MOVE := by
    intro k hk
    rw [hlegal'] at hk ⊢
    rw [hlglen] at hk
    rw [hlg_at k hk]
    by_cases hkb : k = bi
    · rw [if_pos hkb]; exact hnn mo.index hil
    · by_cases hki : k = mo.index
      · rw [if_neg hkb, if_pos hki]; exact hnn bi hbl
      · rw [if_neg hkb, if_neg hki]; exact hnn k hk
  have htrack : ∀ m, Tracked mo m →
      mScore env sp ssi c0 m ≤ mScore env sp ssi c0 ((mo.selectPhase env sp ssi).1)
      ∧ ((mo.selectPhase env sp ssi).1 = m ∨ Tracked (mo.selectPhase env sp ssi).2 m) := by
    intro m hT
    obtain ⟨q, hq1, hq2, hq3⟩ := hT
    constructor
    · rw [hmsr, ← hq3, ← halign q hq2]
      exact hmax q hq1 hq2
    · by_cases hqb : q = bi
      · left
        rw [hret, ← hq3, hqb]
      · by_cases hqi : q = mo.index
        · right
          refine ⟨bi, by omega, by omega, ?_⟩
          rw [hlegal', hlg_at bi (by omega), if_pos rfl, ← hqi]
          exact hq3
        · right
          refine ⟨q, by omega, by omega, ?_⟩
          rw [hlegal', hlg_at q (by omega), if_neg hqb, if_neg hqi]
          exact hq3
  refine ⟨⟨?_, ?_, ?_, ?_, ?_, hnn', ?_, ?_⟩, hidx', by rw [hlegal', hlglen], hrnn, htrack⟩
  · rw [hcol', hcol]
  · rw [hpv', hpv]
  · rw [hhash', hhash]
  · rw [hidx']
    omega
  · rw [hlegal', hlglen, hlen]
  · -- score alignment for the new state
    intro k hk
    by_cases hcond : mo.mgStage = .STAGE_CAPTURES
        ∧ mo.scores.getD bi 0 < SCORE_WINNING_CAPTURE
    · obtain ⟨hst2, hsc2⟩ := hthen hcond
      have hcap : mo.quietStart = Lc.length ∧ mo.scores.length = Lc.length
          ∧ mo.legalMoves.drop Lc.length = Lq := by
        rcases hstage with ⟨_, a, b, c⟩ | ⟨hqq, _⟩
        · exact ⟨a, b, c⟩
        · rw [hcond.1] at hqq; cases hqq
      obtain ⟨hq1, hq2, hq3⟩ := hcap
      have hdropSwap : (listSwap mo.legalMoves bi mo.index).drop Lc.length = Lq := by
        rw [listSwap_drop mo.legalMoves bi mo.index Lc.length (by omega) (by omega)]
        exact hq3
      rw [hsc2] at hk
      rw [hsc2, hlegal']
      rw [hq1, hdropSwap, hcol] at hk ⊢
      rw [List.length_append, hswlen, List.length_map] at hk
      by_cases hkc : k < mo.scores.length
      · rw [List.getD_append _ _ _ k (by omega)]
        exact halign_swap k hkc
      · rw [List.getD_append_right _ _ _ k (by omega)]
        rw [hswlen]
        have htq : k - mo.scores.length < Lq.length := by omega
        rw [getD_map_int _ Lq _ htq]
        have hlk : (listSwap mo.legalMoves bi mo.index).getD k NULL_MOVE
            = Lq.getD (k - Lc.length) NULL_MOVE := by
          have hdd := getD_drop (listSwap mo.legalMoves bi mo.index) Lc.length
            (k - Lc.length) NULL_MOVE
          rw [hdropSwap] at hdd
          have hke : (listSwap mo.legalMoves bi mo.index).getD k NULL_MOVE
              = (listSwap mo.legalMoves bi mo.index).getD
                  (Lc.length + (k - Lc.length)) NULL_MOVE := by
            congr 1
            omega
          rw [hke, ← hdd]
        rw [hlk]
        have hmem : Lq.getD (k - Lc.length) NULL_MOVE ∈ Lq :=
          getD_mem Lq (k - Lc.length) NULL_MOVE (by omega)
        unfold mScore
        rw [hLq _ hmem, hq2]
        simp
    · obtain ⟨hst2, hsc2⟩ := helse hcond
      rw [hsc2] at hk
      rw [hsc2, hlegal']
      rw [hswlen] at hk
      exact halign_swap k hk
  · -- stage disjunct for the new state
    by_cases hcond : mo.mgStage = .STAGE_CAPTURES
        ∧ mo.scores.getD bi 0 < SCORE_WINNING_CAPTURE
    · obtain ⟨hst2, hsc2⟩ := hthen hcond
      have hcap : mo.quietStart = Lc.length ∧ mo.scores.length = Lc.length
          ∧ mo.legalMoves.drop Lc.length = Lq := by
        rcases hstage with ⟨_, a, b, c⟩ | ⟨hqq, _⟩
        · exact ⟨a, b, c⟩
        · rw [hcond.1] at hqq; cases hqq
      obtain ⟨hq1, hq2, hq3⟩ := hcap
      have hdropSwap : (listSwap mo.legalMoves bi mo.index).drop Lc.length = Lq := by
        rw [listSwap_drop mo.legalMoves bi mo.index Lc.length (by omega) (by omega)]
        exact hq3
      right
      refine ⟨hst2, ?_⟩
      rw [hsc2, hlegal']
      rw [List.length_append, hswlen, hlglen, List.length_map]
      rw [hq1, hdropSwap]
      omega
    · obtain ⟨hst2, hsc2⟩ := helse hcond
      rcases hstage with ⟨hs, a, b, c⟩ | ⟨hs, b⟩
      · left
        refine ⟨by rw [hst2, hs], by rw [hqs', a], by rw [hsc2, hswlen, b], ?_⟩
        rw [hlegal']
        rw [listSwap_drop mo.legalMoves bi mo.index Lc.length (by omega) (by omega)]
        exact c
      · right
        refine ⟨by rw [hst2, hs], ?_⟩
        rw [hsc2, hlegal', hswlen, hlglen, b]

/-- Tracked moves are all pulled, and pulled in strictly descending
`mScore` order relative to one another, over a full trace with enough
fuel. -/
theorem pulls_complete_ordered (env : Env) (sp : SearchParameters)
    (ssi : SearchStackInfo) (c0 : Nat) (Lc Lq : List Move)
    (hLq : ∀ m ∈ Lq, env.isCapture m = false) :
    ∀ (fuel : Nat) (mo : MoveOrder), Inv env sp ssi c0 Lc Lq mo →
      mo.legalMoves.length + 1 - mo.index ≤ fuel →
      (∀ m, Tracked mo m → m ∈ pullsAux env sp ssi fuel mo)
      ∧ (∀ m1 m2, Tracked mo m1 → Tracked mo m2 →
          mScore env sp ssi c0 m2 < mScore env sp ssi c0 m1 →
          (pullsAux env sp ssi fuel mo).indexOf m1
            < (pullsAux env sp ssi fuel mo).indexOf m2) := by
  intro fuel
  induction fuel with
  | zero =>
    intro mo hInv hfuel
    have hsl := Inv_scores_le env sp ssi c0 Lc Lq mo hInv
    constructor
    · intro m hT
      obtain ⟨q, hq1, hq2, _⟩ := hT
      omega
    · intro m1 m2 hT1 hT2 _
      obtain ⟨q, hq1, hq2, _⟩ := hT1
      omega
  | succ fuel ih =>
    intro mo hInv hfuel
    have hsl := Inv_scores_le env sp ssi c0 Lc Lq mo hInv
    constructor
    · intro m hT
      have hne : mo.index < mo.scores.length := by
        obtain ⟨q, hq1, hq2, _⟩ := hT
        omega
      obtain ⟨hInv', hidx', hlen', hnnr, hdom⟩ :=
        step_Inv env sp ssi c0 Lc Lq hLq mo hInv hne
      rw [pullsAux_succ, if_neg hnnr]
      rcases (hdom m hT).2 with hr | hT'
      · rw [hr]
        exact List.mem_cons_self _ _
      · exact List.mem_cons_of_mem _
          ((ih _ hInv' (by rw [hlen', hidx']; omega)).1 m hT')
    · intro m1 m2 hT1 hT2 hlt
      have hne : mo.index < mo.scores.length := by
        obtain ⟨q, hq1, hq2, _⟩ := hT1
        omega
      obtain ⟨hInv', hidx', hlen', hnnr, hdom⟩ :=
        step_Inv env sp ssi c0 Lc Lq hLq mo hInv hne
      have hm12 : m1 ≠ m2 := by
        intro he
        rw [he] at hlt
        omega
      rw [pullsAux_succ, if_neg hnnr]
      have hr2 : (mo.nextMove env sp ssi).1 ≠ m2 := by
        intro he
        have hd := (hdom m1 hT1).1
        rw [he] at hd
        omega
      by_cases hr1 : (mo.nextMove env sp ssi).1 = m1
      · rw [hr1, List.indexOf_cons_self, List.indexOf_cons_ne _ hm12]
        exact Nat.succ_pos _
      · have hT1' := ((hdom m1 hT1).2).resolve_left hr1
        have hT2' := ((hdom m2 hT2).2).resolve_left hr2
        rw [List.indexOf_cons_ne _ hr1, List.indexOf_cons_ne _ hr2]
        exact Nat.succ_lt_succ
          ((ih _ hInv' (by rw [hlen', hidx']; omega)).2 m1 m2 hT1' hT2' hlt)

theorem findIdx_partition (env : Env) (Lq : List Move)
    (hLq : ∀ m ∈ Lq, env.isCapture m = false) :
    ∀ (Lc : List Move), (∀ m ∈ Lc, env.isCapture m = true) →
      (Lc ++ Lq).findIdx (fun m => !(env.isCapture m)) = Lc.length := by
  intro Lc
  induction Lc with
  | nil =>
    intro _
    cases Lq with
    | nil => rfl
    | cons a t =>
      rw [List.nil_append, List.findIdx_cons]
      have ha : env.isCapture a = false := hLq a (List.mem_cons_self a t)
      simp [ha]
  | cons a t ih =>
    intro hLc
    rw [List.cons_append, List.findIdx_cons]
    have ha : env.isCapture a = true := hLc a (List.mem_cons_self a t)
    rw [ha]
    simp only [Bool.not_true, cond_false, List.length_cons]
    rw [ih (fun m hm => hLc m (List.mem_cons_of_mem a hm))]

theorem genLoop_init_eq (env : Env) (sp : SearchParameters) (ssi : SearchStackInfo)
    (c0 : Nat) (depth : Int) (Lc Lq : List Move)
    (hLc : ∀ m ∈ Lc, env.isCapture m = true)
    (hLq : ∀ m ∈ Lq, env.isCapture m = false)
    (hnc : Lc ≠ []) :
    (MoveOrder.init c0 depth true NULL_MOVE (Lc ++ Lq)).genLoop env sp ssi
      = pvStartState env c0 depth Lc Lq := by
  have hstep : (MoveOrder.init c0 depth true NULL_MOVE (Lc ++ Lq)).generateMoves env sp ssi
      = pvStartState env c0 depth Lc Lq := by
    rw [generateMoves_none_nohash env sp ssi _ rfl rfl, hashStage_eq]
    unfold MoveOrder.init pvStartState
    dsimp only
    rw [findIdx_partition env Lq hLq Lc hLc, List.take_left]
    simp
  have hcond1 : (MoveOrder.init c0 depth true NULL_MOVE (Lc ++ Lq)).scores.length
      ≤ (MoveOrder.init c0 depth true NULL_MOVE (Lc ++ Lq)).index := Nat.le_refl 0
  have hcond2 : ¬((MoveOrder.init c0 depth true NULL_MOVE (Lc ++ Lq)).mgStage
      = MoveGenStage.STAGE_QUIETS) := by simp [MoveOrder.init]
  show MoveOrder.genLoopF env sp ssi (3 + 1) _ = _
  rw [genLoopF_succ, if_pos hcond1, if_neg hcond2, hstep]
  show MoveOrder.genLoopF env sp ssi (2 + 1) _ = _
  rw [genLoopF_succ, if_neg ?_]
  unfold pvStartState
  dsimp only
  rw [List.length_map]
  have hpos := List.length_pos.mpr hnc
  omega

theorem Inv_pvStartState (env : Env) (sp : SearchParameters) (ssi : SearchStackInfo)
    (c0 : Nat) (depth : Int) (Lc Lq : List Move)
    (hLc : ∀ m ∈ Lc, env.isCapture m = true)
    (hLq : ∀ m ∈ Lq, env.isCapture m = false)
    (hnLc : NULL_MOVE ∉ Lc) (hnLq : NULL_MOVE ∉ Lq) :
    Inv env sp ssi c0 Lc Lq (pvStartState env c0 depth Lc Lq) := by
  refine ⟨rfl, rfl, rfl, Nat.zero_le _, ?_, ?_, ?_, ?_⟩
  · unfold pvStartState
    dsimp only
    exact List.length_append Lc Lq
  · intro k hk
    unfold pvStartState at hk ⊢
    dsimp only at hk ⊢
    have hmem := getD_mem (Lc ++ Lq) k NULL_MOVE hk
    intro he
    rw [he] at hmem
    rcases List.mem_append.mp hmem with h | h
    · exact hnLc h
    · exact hnLq h
  · intro k hk
    unfold pvStartState at hk ⊢
    dsimp only at hk ⊢
    rw [List.length_map] at hk
    rw [getD_map_int _ Lc k hk, List.getD_append _ _ _ k hk]
    have hmem := getD_mem Lc k NULL_MOVE hk
    unfold mScore
    rw [hLc _ hmem]
    simp
  · left
    refine ⟨rfl, rfl, ?_, ?_⟩
    · unfold pvStartState
      dsimp only
      exact List.length_map Lc _
    · unfold pvStartState
      dsimp only
      exact List.drop_left Lc Lq

/-- Claim C6: at a PV node with no hash move and a capture-partitioned
legal move list, any capture m1 with positive SEE is pulled strictly before
any capture m2 with negative SEE (MVV/LVA tie-break magnitudes small
relative to the tier-constant gaps), and both are pulled before
exhaustion. -/
theorem c6_pv_see_order (env : Env) (sp : SearchParameters) (ssi : SearchStackInfo)
    (c0 : Nat) (depth : Int) (Lc Lq : List Move) (m1 m2 : Move)
    (hLc : ∀ m ∈ Lc, env.isCapture m = true)
    (hLq : ∀ m ∈ Lq, env.isCapture m = false)
    (hnLc : NULL_MOVE ∉ Lc) (hnLq : NULL_MOVE ∉ Lq)
    (hm1 : m1 ∈ Lc) (hm2 : m2 ∈ Lc)
    (hsee1 : 0 < env.getSEEForMove c0 m1)
    (hsee2 : env.getSEEForMove c0 m2 < 0)
    (hmvv1 : |env.getMVVLVAScore c0 m1| ≤ 1048576)
    (hmvv2 : |env.getMVVLVAScore c0 m2| ≤ 1048576) :
    m1 ∈ pullsToExhaustion env sp ssi (MoveOrder.init c0 depth true NULL_MOVE (Lc ++ Lq))
    ∧ m2 ∈ pullsToExhaustion env sp ssi (MoveOrder.init c0 depth true NULL_MOVE (Lc ++ Lq))
    ∧ (pullsToExhaustion env sp ssi
          (MoveOrder.init c0 depth true NULL_MOVE (Lc ++ Lq))).indexOf m1
        < (pullsToExhaustion env sp ssi
            (MoveOrder.init c0 depth true NULL_MOVE (Lc ++ Lq))).indexOf m2 := by
  have hc1 : env.isCapture m1 = true := hLc m1 hm1
  have hc2 : env.isCapture m2 = true := hLc m2 hm2
  have h0 : env.getSEEForMove c0 m1 > 0 := hsee1
  have hn1 : ¬(env.getSEEForMove c0 m2 > 0) := by omega
  have hn2 : ¬(env.getSEEForMove c0 m2 = 0) := by omega
  have hms1 : mScore env sp ssi c0 m1
      = SCORE_WINNING_CAPTURE + env.getSEEForMove c0 m1 + env.getMVVLVAScore c0 m1 := by
    simp [mScore, captureScore, hc1, h0]
  have hms2 : mScore env sp ssi c0 m2
      = SCORE_LOSING_CAPTURE + env.getSEEForMove c0 m2 + env.getMVVLVAScore c0 m2 := by
    simp [mScore, captureScore, hc2, hn1, hn2]
  have hlt : mScore env sp ssi c0 m2 < mScore env sp ssi c0 m1 := by
    rw [hms1, hms2]
    rw [abs_le] at hmvv1 hmvv2
    unfold SCORE_WINNING_CAPTURE SCORE_LOSING_CAPTURE
    omega
  have hnc : Lc ≠ [] := by
    intro h
    rw [h] at hm1
    exact (List.not_mem_nil m1) hm1
  have hgl := genLoop_init_eq env sp ssi c0 depth Lc Lq hLc hLq hnc
  have hInv1 := Inv_pvStartState env sp ssi c0 depth Lc Lq hLc hLq hnLc hnLq
  have htr : ∀ m, m ∈ Lc → Tracked (pvStartState env c0 depth Lc Lq) m := by
    intro m hm
    obtain ⟨q, hq, he⟩ := List.mem_iff_getElem.mp hm
    refine ⟨q, Nat.zero_le q, ?_, ?_⟩
    · unfold pvStartState
      dsimp only
      rw [List.length_map]
      exact hq
    · unfold pvStartState
      dsimp only
      rw [List.getD_append _ _ _ q hq]
      rw [List.getD_eq_getElem?_getD, List.getElem?_eq_getElem hq]
      exact he
  have hlenpos : 0 < (pvStartState env c0 depth Lc Lq).scores.length := by
    unfold pvStartState
    dsimp only
    rw [List.length_map]
    exact List.length_pos.mpr hnc
  have hni : ¬((MoveOrder.init c0 depth true NULL_MOVE (Lc ++ Lq)).mgStage
      = MoveGenStage.STAGE_HASH_MOVE) := by simp [MoveOrder.init]
  have hnp : ¬((pvStartState env c0 depth Lc Lq).mgStage
      = MoveGenStage.STAGE_HASH_MOVE) := by simp [pvStartState]
  have hnmeq : (MoveOrder.init c0 depth true NULL_MOVE (Lc ++ Lq)).nextMove env sp ssi
      = MoveOrder.nextMove env sp ssi (pvStartState env c0 depth Lc Lq) := by
    rw [nextMove_eq, nextMove_eq, hgl]
    rw [if_neg hni, if_neg hnp]
    rw [genLoop_of_index_lt env sp ssi (pvStartState env c0 depth Lc Lq) hlenpos]
  have hpull : pullsToExhaustion env sp ssi
        (MoveOrder.init c0 depth true NULL_MOVE (Lc ++ Lq))
      = pullsAux env sp ssi ((Lc ++ Lq).length + 1) (pvStartState env c0 depth Lc Lq) := by
    show pullsAux env sp ssi ((Lc ++ Lq).length + 1) _ = _
    rw [pullsAux_succ, pullsAux_succ, hnmeq]
  have hmain := pulls_complete_ordered env sp ssi c0 Lc Lq hLq
    ((Lc ++ Lq).length + 1) (pvStartState env c0 depth Lc Lq) hInv1
    (by unfold pvStartState; dsimp only; omega)
  rw [hpull]
  exact ⟨hmain.1 m1 (htr m1 hm1), hmain.1 m2 (htr m2 hm2),
    hmain.2 m1 m2 (htr m1 hm1) (htr m2 hm2) hlt⟩

/-- Claim C6 witness: with captures 1 (SEE +200) and 2 (SEE −50) and quiet
move 4, the winning capture 1 is pulled before the losing capture 2. -/
theorem c6_witness :
    (1 : Move) ∈ pullsToExhaustion cenv csp cssi
        (MoveOrder.init 0 6 true NULL_MOVE ([1, 2] ++ [4]))
    ∧ (2 : Move) ∈ pullsToExhaustion cenv csp cssi
        (MoveOrder.init 0 6 true NULL_MOVE ([1, 2] ++ [4]))
    ∧ (pullsToExhaustion cenv csp cssi
          (MoveOrder.init 0 6 true NULL_MOVE ([1, 2] ++ [4]))).indexOf 1
        < (pullsToExhaustion cenv csp cssi
            (MoveOrder.init 0 6 true NULL_MOVE ([1, 2] ++ [4]))).indexOf 2 :=
  c6_pv_see_order cenv csp cssi 0 6 [1, 2] [4] 1 2 (by decide) (by decide)
    (by decide) (by decide) (by decide) (by decide) (by decide) (by decide)
    (by decide) (by decide)

/-- Claim C10 counterexample: the NULL_MOVE-returning call is not pure.
On a fresh MoveOrder over the empty legal move set with no hash move, the
first nextMove call returns the exhaustion sentinel but advances mgStage
from STAGE_NONE to STAGE_QUIETS; and on a fresh MoveOrder whose predicted
move 7 is the only legal move, the first call returns the sentinel while
also erasing the hash move, changing legalMoves from [7] to []. -/
theorem c10_null_changes_stage :
    (MoveOrder.nextMove cenv csp cssi (MoveOrder.init 0 1 true 0 [])).1 = NULL_MOVE
    ∧ (MoveOrder.init 0 1 true 0 []).mgStage = MoveGenStage.STAGE_NONE
    ∧ ((MoveOrder.nextMove cenv csp cssi (MoveOrder.init 0 1 true 0 [])).2).mgStage
        = MoveGenStage.STAGE_QUIETS
    ∧ (MoveOrder.nextMove cenv csp cssi (MoveOrder.init 0 1 true 7 [7])).1 = NULL_MOVE
    ∧ (MoveOrder.init 0 1 true 7 [7]).legalMoves = [7]
    ∧ ((MoveOrder.nextMove cenv csp cssi (MoveOrder.init 0 1 true 7 [7])).2).legalMoves
        = [] := by decide

/-- Claim C10 amended: on states satisfying the generator's reachability
conditions, whenever nextMove returns NULL_MOVE the call leaves index,
ScoreList (as a value) and quietStart unchanged; legalMoves is unchanged
unless the call passes through the NONE stage with a non-sentinel
predicted move, in which case exactly that move is erased from the list;
mgStage may advance and is STAGE_QUIETS afterwards; and the exhausted
state is then stable: the next call returns NULL_MOVE again with the state
fully unchanged (hence, by induction, every subsequent call does). -/
theorem c10_exhaustion_stable (env : Env) (sp : SearchParameters)
    (ssi : SearchStackInfo) (mo : MoveOrder)
    (hHash : mo.mgStage = .STAGE_HASH_MOVE → mo.hashed ≠ NULL_MOVE)
    (hN : mo.mgStage = .STAGE_NONE →
      mo.scores = [] ∧ mo.index = 0 ∧ mo.quietStart = 0)
    (hC : mo.mgStage = .STAGE_CAPTURES → mo.quietStart = mo.scores.length)
    (hidx : mo.index ≤ mo.scores.length)
    (hsl : mo.scores.length ≤ mo.legalMoves.length)
    (hnn : ∀ k, k < mo.legalMoves.length → mo.legalMoves.getD k NULL_MOVE ≠ NULL_MOVE)
    (hret : (mo.nextMove env sp ssi).1 = NULL_MOVE) :
    (mo.nextMove env sp ssi).2.mgStage = .STAGE_QUIETS
    ∧ (mo.nextMove env sp ssi).2.index = mo.index
    ∧ (mo.nextMove env sp ssi).2.scores = mo.scores
    ∧ (mo.nextMove env sp ssi).2.quietStart = mo.quietStart
    ∧ (mo.mgStage = .STAGE_NONE ∧ mo.hashed ≠ NULL_MOVE →
        (mo.nextMove env sp ssi).2.legalMoves = mo.legalMoves.erase mo.hashed)
    ∧ (¬(mo.mgStage = .STAGE_NONE ∧ mo.hashed ≠ NULL_MOVE) →
        (mo.nextMove env sp ssi).2.legalMoves = mo.legalMoves)
    ∧ MoveOrder.nextMove env sp ssi (mo.nextMove env sp ssi).2
        = (NULL_MOVE, (mo.nextMove env sp ssi).2) := by
  cases hst : mo.mgStage with
  | STAGE_HASH_MOVE =>
    rw [nextMove_eq, if_pos hst] at hret
    exact absurd hret (hHash hst)
  | STAGE_QUIETS =>
    by_cases hq : mo.index < mo.scores.length
    · have hg : mo.genLoop env sp ssi = mo := genLoop_of_index_lt env sp ssi mo hq
      have hr1 : (mo.nextMove env sp ssi).1 = (mo.selectPhase env sp ssi).1 := by
        rw [nextMove_eq, if_neg (by simp [hst]), hg, if_neg (by omega)]
      rw [hr1] at hret
      exact absurd hret (selectPhase_ne_null env sp ssi mo hq hsl hnn)
    · have hq' : mo.scores.length ≤ mo.index := by omega
      have hnm := nextMove_exhausted env sp ssi mo hst hq'
      rw [hnm]
      exact ⟨hst, rfl, rfl, rfl,
        fun hcon => absurd hcon.1 (by decide),
        fun _ => rfl, hnm⟩
  | STAGE_CAPTURES =>
    have hqc := hC hst
    by_cases hq : mo.index < mo.scores.length
    · have hg : mo.genLoop env sp ssi = mo := genLoop_of_index_lt env sp ssi mo hq
      have hr1 : (mo.nextMove env sp ssi).1 = (mo.selectPhase env sp ssi).1 := by
        rw [nextMove_eq, if_neg (by simp [hst]), hg, if_neg (by omega)]
      rw [hr1] at hret
      exact absurd hret (selectPhase_ne_null env sp ssi mo hq hsl hnn)
    · have hq' : mo.scores.length ≤ mo.index := by omega
      have hg : mo.genLoop env sp ssi = mo.generateMoves env sp ssi :=
        genLoop_captures_exhausted env sp ssi mo hst hq'
      have hgen := generateMoves_captures env sp ssi mo hst
      have hstage2 : (mo.generateMoves env sp ssi).mgStage = .STAGE_QUIETS := by
        rw [hgen]
      have hidx2 : (mo.generateMoves env sp ssi).index = mo.index := by rw [hgen]
      have hlegal2 : (mo.generateMoves env sp ssi).legalMoves = mo.legalMoves := by
        rw [hgen]
      have hqs2 : (mo.generateMoves env sp ssi).quietStart = mo.quietStart := by
        rw [hgen]
      have hlen2 : (mo.generateMoves env sp ssi).scores.length = mo.legalMoves.length := by
        rw [hgen]
        simp only [List.length_append, List.length_map, List.length_drop]
        omega
      by_cases h2 : (mo.generateMoves env sp ssi).scores.length
          ≤ (mo.generateMoves env sp ssi).index
      · have hqlen : mo.quietStart = mo.legalMoves.length := by omega
        have hbatch : mo.legalMoves.drop mo.quietStart = [] := by
          rw [hqlen, List.drop_length]
        have hscores2 : (mo.generateMoves env sp ssi).scores = mo.scores := by
          rw [hgen]
          simp only [hbatch, List.map_nil, List.append_nil]
        have hnm : mo.nextMove env sp ssi = (NULL_MOVE, mo.generateMoves env sp ssi) := by
          rw [nextMove_eq, if_neg (by simp [hst]), hg, if_pos h2]
        rw [hnm]
        exact ⟨hstage2, hidx2, hscores2, hqs2,
          fun hcon => absurd hcon.1 (by decide),
          fun _ => hlegal2,
          nextMove_exhausted env sp ssi _ hstage2 h2⟩
      · have hsl2 : (mo.generateMoves env sp ssi).scores.length
            ≤ (mo.generateMoves env sp ssi).legalMoves.length := by
          rw [hlegal2]; omega
        have hnn2 : ∀ k, k < (mo.generateMoves env sp ssi).legalMoves.length →
            (mo.generateMoves env sp ssi).legalMoves.getD k NULL_MOVE ≠ NULL_MOVE := by
          rw [hlegal2]; exact hnn
        have hr1 : (mo.nextMove env sp ssi).1
            = ((mo.generateMoves env sp ssi).selectPhase env sp ssi).1 := by
          rw [nextMove_eq, if_neg (by simp [hst]), hg, if_neg h2]
        rw [hr1] at hret
        exact absurd hret (selectPhase_ne_null env sp ssi _ (by omega) hsl2 hnn2)
  | STAGE_NONE =>
    obtain ⟨hs0, hi0, hq0⟩ := hN hst
    by_cases hh : mo.hashed = NULL_MOVE
    · -- no hash move: NONE falls through to the capture stage
      have hg1 := generateMoves_none_nohash env sp ssi mo hst hh
      have hstage1 : (mo.hashStage env).mgStage = .STAGE_CAPTURES := by rw [hashStage_eq]
      have hidx1 : (mo.hashStage env).index = mo.index := by rw [hashStage_eq]
      have hlegal1 : (mo.hashStage env).legalMoves = mo.legalMoves := by rw [hashStage_eq]
      have hqs1 : (mo.hashStage env).quietStart
          = mo.legalMoves.findIdx (fun m => !(env.isCapture m)) := by rw [hashStage_eq]
      have hscores1 : (mo.hashStage env).scores
          = (mo.legalMoves.take (mo.legalMoves.findIdx (fun m => !(env.isCapture m)))).map
              (captureScore env mo.color mo.isPVNode) := by
        rw [hashStage_eq]
        simp only [hs0, List.nil_append]
      have hlen1 : (mo.hashStage env).scores.length
          = min (mo.legalMoves.findIdx (fun m => !(env.isCapture m))) mo.legalMoves.length := by
        rw [hscores1, List.length_map, List.length_take]
      by_cases hfi : 0 < (mo.hashStage env).scores.length
      · have hgLoop : mo.genLoop env sp ssi = mo.hashStage env := by
          show MoveOrder.genLoopF env sp ssi (3 + 1) mo = mo.hashStage env
          rw [genLoopF_succ, if_pos (by rw [hs0, hi0]; exact Nat.le_refl 0),
            if_neg (by simp [hst]), hg1]
          show MoveOrder.genLoopF env sp ssi (2 + 1) (mo.hashStage env) = mo.hashStage env
          rw [genLoopF_succ, if_neg (by omega)]
        have hsl1 : (mo.hashStage env).scores.length
            ≤ (mo.hashStage env).legalMoves.length := by
          rw [hlegal1]; omega
        have hnn1 : ∀ k, k < (mo.hashStage env).legalMoves.length →
            (mo.hashStage env).legalMoves.getD k NULL_MOVE ≠ NULL_MOVE := by
          rw [hlegal1]; exact hnn
        have hr1 : (mo.nextMove env sp ssi).1
            = ((mo.hashStage env).selectPhase env sp ssi).1 := by
          rw [nextMove_eq, if_neg (by simp [hst]), hgLoop, if_neg (by omega)]
        rw [hr1] at hret
        exact absurd hret (selectPhase_ne_null env sp ssi _ (by omega) hsl1 hnn1)
      · have hlen1' : (mo.hashStage env).scores.length = 0 := by omega
        have hgen2 := generateMoves_captures env sp ssi (mo.hashStage env) hstage1
        have hstage2 : ((mo.hashStage env).generateMoves env sp ssi).mgStage
            = .STAGE_QUIETS := by rw [hgen2]
        have hidx2 : ((mo.hashStage env).generateMoves env sp ssi).index = mo.index := by
          rw [hgen2]; exact hidx1
        have hlegal2 : ((mo.hashStage env).generateMoves env sp ssi).legalMoves
            = mo.legalMoves := by rw [hgen2]; exact hlegal1
        have hqs2 : ((mo.hashStage env).generateMoves env sp ssi).quietStart
            = (mo.hashStage env).quietStart := by rw [hgen2]
        have hlen2 : ((mo.hashStage env).generateMoves env sp ssi).scores.length
            = (mo.hashStage env).scores.length
              + (mo.legalMoves.length - (mo.hashStage env).quietStart) := by
          rw [hgen2]
          simp only [List.length_append, List.length_map, List.length_drop, hlegal1]
        have hgLoop : mo.genLoop env sp ssi
            = (mo.hashStage env).generateMoves env sp ssi := by
          show MoveOrder.genLoopF env sp ssi (3 + 1) mo = _
          rw [genLoopF_succ, if_pos (by rw [hs0, hi0]; exact Nat.le_refl 0),
            if_neg (by simp [hst]), hg1]
          show MoveOrder.genLoopF env sp ssi (2 + 1) (mo.hashStage env) = _
          rw [genLoopF_succ, if_pos (by omega), if_neg (by simp [hstage1])]
          exact genLoopF_quiets env sp ssi 2 _ hstage2
        by_cases h2 : ((mo.hashStage env).generateMoves env sp ssi).scores.length
            ≤ ((mo.hashStage env).generateMoves env sp ssi).index
        · -- genuine exhaustion: the move list must be empty
          have hfin : mo.legalMoves.findIdx (fun m => !(env.isCapture m))
              ≤ mo.legalMoves.length := List.findIdx_le_length _
          have hlen0 : mo.legalMoves.length = 0 := by omega
          have hnil : mo.legalMoves = [] := List.eq_nil_of_length_eq_zero hlen0
          have hfi0 : mo.legalMoves.findIdx (fun m => !(env.isCapture m)) = 0 := by
            rw [hnil]; rfl
          have hscores2 : ((mo.hashStage env).generateMoves env sp ssi).scores
              = mo.scores := by
            rw [hgen2]
            dsimp only
            rw [hscores1, hqs1, hlegal1, hnil, hs0]
            rfl
          have hqs2' : ((mo.hashStage env).generateMoves env sp ssi).quietStart
              = mo.quietStart := by
            rw [hqs2, hqs1, hfi0, hq0]
          have hnm : mo.nextMove env sp ssi
              = (NULL_MOVE, (mo.hashStage env).generateMoves env sp ssi) := by
            rw [nextMove_eq, if_neg (by simp [hst]), hgLoop, if_pos h2]
          rw [hnm]
          exact ⟨hstage2, hidx2, hscores2, hqs2',
            fun hcon => absurd hh hcon.2,
            fun _ => hlegal2,
            nextMove_exhausted env sp ssi _ hstage2 h2⟩
        · have hsl2 : ((mo.hashStage env).generateMoves env sp ssi).scores.length
              ≤ ((mo.hashStage env).generateMoves env sp ssi).legalMoves.length := by
            rw [hlegal2, hlen2]
            omega
          have hnn2 : ∀ k,
              k < ((mo.hashStage env).generateMoves env sp ssi).legalMoves.length →
              ((mo.hashStage env).generateMoves env sp ssi).legalMoves.getD k NULL_MOVE
                ≠ NULL_MOVE := by
            rw [hlegal2]; exact hnn
          have hr1 : (mo.nextMove env sp ssi).1
              = (((mo.hashStage env).generateMoves env sp ssi).selectPhase env sp ssi).1 := by
            rw [nextMove_eq, if_neg (by simp [hst]), hgLoop, if_neg h2]
          rw [hr1] at hret
          refine absurd hret (selectPhase_ne_null env sp ssi _ ?_ hsl2 hnn2)
          rw [hidx2]
          omega
    · -- a hash move is present: the NONE stage first erases it
      have hg1 := generateMoves_none_hash env sp ssi mo hst hh
      have hSt1 : (mo.generateMoves env sp ssi).mgStage = .STAGE_HASH_MOVE := by rw [hg1]
      have hL1 : (mo.generateMoves env sp ssi).legalMoves
          = mo.legalMoves.erase mo.hashed := by rw [hg1]
      have hS1 : (mo.generateMoves env sp ssi).scores = mo.scores := by rw [hg1]
      have hI1 : (mo.generateMoves env sp ssi).index = mo.index := by rw [hg1]
      have hnnE : ∀ k, k < (mo.legalMoves.erase mo.hashed).length →
          (mo.legalMoves.erase mo.hashed).getD k NULL_MOVE ≠ NULL_MOVE := by
        intro k hk he
        have hmem := getD_mem (mo.legalMoves.erase mo.hashed) k NULL_MOVE hk
        rw [he] at hmem
        have hmem2 : NULL_MOVE ∈ mo.legalMoves := List.mem_of_mem_erase hmem
        obtain ⟨j, hj, hje⟩ := List.mem_iff_getElem.mp hmem2
        apply hnn j hj
        rw [List.getD_eq_getElem?_getD, List.getElem?_eq_getElem hj]
        simp only [Option.getD_some]
        exact hje
      have hg2 : (mo.generateMoves env sp ssi).generateMoves env sp ssi
          = (mo.generateMoves env sp ssi).hashStage env :=
        generateMoves_hash env sp ssi _ hSt1
      have hSt2 : ((mo.generateMoves env sp ssi).hashStage env).mgStage
          = .STAGE_CAPTURES := by rw [hashStage_eq]
      have hI2 : ((mo.generateMoves env sp ssi).hashStage env).index = mo.index := by
        rw [hashStage_eq]; exact hI1
      have hL2 : ((mo.generateMoves env sp ssi).hashStage env).legalMoves
          = mo.legalMoves.erase mo.hashed := by rw [hashStage_eq]; exact hL1
      have hQ2 : ((mo.generateMoves env sp ssi).hashStage env).quietStart
          = (mo.legalMoves.erase mo.hashed).findIdx (fun m => !(env.isCapture m)) := by
        rw [hashStage_eq]
        dsimp only
        rw [hL1]
      have hS2 : ((mo.generateMoves env sp ssi).hashStage env).scores
          = ((mo.legalMoves.erase mo.hashed).take
              ((mo.legalMoves.erase mo.hashed).findIdx (fun m => !(env.isCapture m)))).map
              (captureScore env (mo.generateMoves env sp ssi).color
                (mo.generateMoves env sp ssi).isPVNode) := by
        rw [hashStage_eq]
        dsimp only
        rw [hL1, hS1, hs0, List.nil_append]
      have hlen2 : ((mo.generateMoves env sp ssi).hashStage env).scores.length
          = min ((mo.legalMoves.erase mo.hashed).findIdx (fun m => !(env.isCapture m)))
              (mo.legalMoves.erase mo.hashed).length := by
        rw [hS2, List.length_map, List.length_take]
      have hgpre : mo.genLoop env sp ssi
          = MoveOrder.genLoopF env sp ssi 2 ((mo.generateMoves env sp ssi).hashStage env) := by
        show MoveOrder.genLoopF env sp ssi (3 + 1) mo = _
        rw [genLoopF_succ, if_pos (by rw [hs0, hi0]; exact Nat.le_refl 0),
          if_neg (by simp [hst])]
        show MoveOrder.genLoopF env sp ssi (2 + 1) (mo.generateMoves env sp ssi) = _
        rw [genLoopF_succ, if_pos (by rw [hS1, hI1, hs0, hi0]; exact Nat.le_refl 0),
          if_neg (by simp [hSt1]), hg2]
      by_cases hfi : 0 < ((mo.generateMoves env sp ssi).hashStage env).scores.length
      · have hgLoop : mo.genLoop env sp ssi
            = (mo.generateMoves env sp ssi).hashStage env := by
          rw [hgpre]
          show MoveOrder.genLoopF env sp ssi (1 + 1) _ = _
          rw [genLoopF_succ, if_neg (by rw [hI2, hi0]; omega)]
        have hsl2 : ((mo.generateMoves env sp ssi).hashStage env).scores.length
            ≤ ((mo.generateMoves env sp ssi).hashStage env).legalMoves.length := by
          rw [hlen2, hL2]
          exact Nat.min_le_right _ _
        have hnn2 : ∀ k,
            k < ((mo.generateMoves env sp ssi).hashStage env).legalMoves.length →
            ((mo.generateMoves env sp ssi).hashStage env).legalMoves.getD k NULL_MOVE
              ≠ NULL_MOVE := by
          rw [hL2]; exact hnnE
        have hI2lt : ((mo.generateMoves env sp ssi).hashStage env).index
            < ((mo.generateMoves env sp ssi).hashStage env).scores.length := by
          rw [hI2, hi0]; omega
        have hr1 : (mo.nextMove env sp ssi).1
            = (((mo.generateMoves env sp ssi).hashStage env).selectPhase env sp ssi).1 := by
          rw [nextMove_eq, if_neg (by simp [hst]), hgLoop, if_neg (by rw [hI2, hi0]; omega)]
        rw [hr1] at hret
        exact absurd hret (selectPhase_ne_null env sp ssi _ hI2lt hsl2 hnn2)
      · have hlen2' : ((mo.generateMoves env sp ssi).hashStage env).scores.length = 0 := by
          omega
        have hg3 := generateMoves_captures env sp ssi
          ((mo.generateMoves env sp ssi).hashStage env) hSt2
        have hSt3 : (((mo.generateMoves env sp ssi).hashStage env).generateMoves env sp ssi).mgStage
            = .STAGE_QUIETS := by rw [hg3]
        have hI3 : (((mo.generateMoves env sp ssi).hashStage env).generateMoves env sp ssi).index
            = mo.index := by rw [hg3]; exact hI2
        have hL3 : (((mo.generateMoves env sp ssi).hashStage env).generateMoves env sp ssi).legalMoves
            = mo.legalMoves.erase mo.hashed := by rw [hg3]; exact hL2
        have hQ3pre : (((mo.generateMoves env sp ssi).hashStage env).generateMoves env sp ssi).quietStart
            = ((mo.generateMoves env sp ssi).hashStage env).quietStart := by rw [hg3]
        have hlen3 : (((mo.generateMoves env sp ssi).hashStage env).generateMoves env sp ssi).scores.length
            = ((mo.generateMoves env sp ssi).hashStage env).scores.length
              + (((mo.generateMoves env sp ssi).hashStage env).legalMoves.length
                  - ((mo.generateMoves env sp ssi).hashStage env).quietStart) := by
          rw [hg3]
          simp only [List.length_append, List.length_map, List.length_drop]
        have hgLoop : mo.genLoop env sp ssi
            = ((mo.generateMoves env sp ssi).hashStage env).generateMoves env sp ssi := by
          rw [hgpre]
          show MoveOrder.genLoopF env sp ssi (1 + 1) _ = _
          rw [genLoopF_succ, if_pos (by rw [hlen2']; exact Nat.zero_le _),
            if_neg (by simp [hSt2])]
          exact genLoopF_quiets env sp ssi 1 _ hSt3
        by_cases h2 : (((mo.generateMoves env sp ssi).hashStage env).generateMoves env sp ssi).scores.length
            ≤ (((mo.generateMoves env sp ssi).hashStage env).generateMoves env sp ssi).index
        · -- genuine exhaustion: the erased list must be empty
          have hfin : (mo.legalMoves.erase mo.hashed).findIdx (fun m => !(env.isCapture m))
              ≤ (mo.legalMoves.erase mo.hashed).length := List.findIdx_le_length _
          have h2' : (((mo.generateMoves env sp ssi).hashStage env).generateMoves env sp ssi).scores.length
              = 0 := by
            rw [hI3, hi0] at h2
            omega
          rw [hlen3, hlen2', hL2, hQ2] at h2'
          have hmin0 : min ((mo.legalMoves.erase mo.hashed).findIdx
                (fun m => !(env.isCapture m)))
              (mo.legalMoves.erase mo.hashed).length = 0 := by
            rw [← hlen2]
            exact hlen2'
          have hL1len0 : (mo.legalMoves.erase mo.hashed).length = 0 := by
            omega
          have hnil1 : mo.legalMoves.erase mo.hashed = [] :=
            List.eq_nil_of_length_eq_zero hL1len0
          have hS2nil : ((mo.generateMoves env sp ssi).hashStage env).scores = [] :=
            List.eq_nil_of_length_eq_zero hlen2'
          have hS3 : (((mo.generateMoves env sp ssi).hashStage env).generateMoves env sp ssi).scores
              = mo.scores := by
            rw [hg3]
            dsimp only
            rw [hS2nil, hL2, hnil1, hs0]
            simp
          have hQ3 : (((mo.generateMoves env sp ssi).hashStage env).generateMoves env sp ssi).quietStart
              = mo.quietStart := by
            rw [hQ3pre, hQ2, hnil1, hq0]
            rfl
          have hnm : mo.nextMove env sp ssi
              = (NULL_MOVE,
                  ((mo.generateMoves env sp ssi).hashStage env).generateMoves env sp ssi) := by
            rw [nextMove_eq, if_neg (by simp [hst]), hgLoop, if_pos h2]
          rw [hnm]
          exact ⟨hSt3, hI3, hS3, hQ3,
            fun _ => hL3,
            fun hcon => absurd ⟨rfl, hh⟩ hcon,
            nextMove_exhausted env sp ssi _ hSt3 h2⟩
        · have hsl3 : (((mo.generateMoves env sp ssi).hashStage env).generateMoves env sp ssi).scores.length
              ≤ (((mo.generateMoves env sp ssi).hashStage env).generateMoves env sp ssi).legalMoves.length := by
            rw [hlen3, hlen2', hL2, hL3]
            omega
          have hnn3 : ∀ k,
              k < (((mo.generateMoves env sp ssi).hashStage env).generateMoves env sp ssi).legalMoves.length →
              (((mo.generateMoves env sp ssi).hashStage env).generateMoves env sp ssi).legalMoves.getD k NULL_MOVE
                ≠ NULL_MOVE := by
            rw [hL3]; exact hnnE
          have hI3lt : (((mo.generateMoves env sp ssi).hashStage env).generateMoves env sp ssi).index
              < (((mo.generateMoves env sp ssi).hashStage env).generateMoves env sp ssi).scores.length := by
            rw [hI3, hi0]
            omega
          have hr1 : (mo.nextMove env sp ssi).1
              = ((((mo.generateMoves env sp ssi).hashStage env).generateMoves env sp ssi).selectPhase env sp ssi).1 := by
            rw [nextMove_eq, if_neg (by simp [hst]), hgLoop, if_neg h2]
          rw [hr1] at hret
          exact absurd hret (selectPhase_ne_null env sp ssi _ hI3lt hsl3 hnn3)

/-- Claim C10 witness: a capture-stage state with its single scored capture
already consumed returns NULL_MOVE, keeps index, scores and legalMoves,
ends at STAGE_QUIETS, and is then stable. -/
theorem c10_witness :
    (MoveOrder.nextMove cenv csp cssi
        { color := 0, depth := 1, isPVNode := true, mgStage := .STAGE_CAPTURES,
          hashed := NULL_MOVE, legalMoves := [1], scores := [262344],
          quietStart := 1, index := 1 }).2.mgStage = MoveGenStage.STAGE_QUIETS
    ∧ (MoveOrder.nextMove cenv csp cssi
        { color := 0, depth := 1, isPVNode := true, mgStage := .STAGE_CAPTURES,
          hashed := NULL_MOVE, legalMoves := [1], scores := [262344],
          quietStart := 1, index := 1 }).2.scores = [262344]
    ∧ (MoveOrder.nextMove cenv csp cssi
        { color := 0, depth := 1, isPVNode := true, mgStage := .STAGE_CAPTURES,
          hashed := NULL_MOVE, legalMoves := [1], scores := [262344],
          quietStart := 1, index := 1 }).2.legalMoves = [1] :=
  ⟨(c10_exhaustion_stable cenv csp cssi _ (by intro h; cases h) (by intro h; cases h)
      (by intro h; decide) (by decide) (by decide) (by decide) (by decide)).1,
   (c10_exhaustion_stable cenv csp cssi _ (by intro h; cases h) (by intro h; cases h)
      (by intro h; decide) (by decide) (by decide) (by decide) (by decide)).2.2.1,
   (c10_exhaustion_stable cenv csp cssi _ (by intro h; cases h) (by intro h; cases h)
      (by intro h; decide) (by decide) (by decide) (by decide) (by decide)).2.2.2.2.2.1
     (by intro hcon; exact absurd hcon.1 (by decide))⟩

end Laser
